import Mathlib

/-!
Shallow embedding of the X-booking hotel management core
(`src/hotellapp/models.py`, `signals.py`, `presenters.py`, `views.py`)
and proofs about the specified properties.

Modelling conventions:
* Monetary amounts are Python `Decimal`s with 2 decimal places; we embed
  them as integers counting hundredths (cents), which is exact for that
  type.  `Decimal.quantize(Decimal("0.01"))` under Python's default
  context rounds half to even; on the exact ratio `n / d` of two integers
  that is `halfEvenDiv n d` below.  Fixed-point factors: an amount `x`
  stands for the decimal `x / 100`; a VAT rate of 9.00 percent is `900`.
* Calendar dates are naturals counting days (proleptic Gregorian ordinal,
  as in Python's `date.toordinal`); ordinal 1 is a Monday, so Python's
  `date.weekday()` (Monday = 0) is `(d + 6) % 7`.
* The database is an explicit record of rows; Django querysets become
  list filters, saves become state transformers, exceptions become
  `Except`.  A transaction that raises rolls back: a failing operation
  returns `.error` and no state.
-/

/-- Round the exact ratio `n / d` (with `d > 0`) to the nearest integer,
ties to even — the rounding of Python's `Decimal.quantize` under the
default (ROUND_HALF_EVEN) context, and of the builtin `round`. -/
def halfEvenDiv (n d : ℤ) : ℤ :=
  let q := Int.fdiv n d
  let r := n - q * d
  if 2 * r < d then q else if d < 2 * r then q + 1 else if q % 2 = 0 then q else q + 1

/-- Round the exact ratio `n / d` (with `d > 0`) to the nearest integer,
ties away from zero — the "standard (not banker's)" rounding the spec's
wording prescribes (`ROUND_HALF_UP`).  Used only to compare the spec's
wording with the source's actual rounding. -/
def halfUpDiv (n d : ℤ) : ℤ :=
  if 0 ≤ n then Int.fdiv (2 * n + d) (2 * d) else -(Int.fdiv (2 * (-n) + d) (2 * d))

/-- Python's `date.weekday()`: Monday = 0 … Sunday = 6. -/
def pyWeekday (d : Nat) : Nat := (d + 6) % 7

/-! ## Enumerations (`models.py` TextChoices) -/

inductive RoomType where
  | single | double | twin | suite | apartment | junior_suite
  deriving DecidableEq

inductive RoomStatus where
  | available | occupied | cleaning
  deriving DecidableEq

inductive ApplyOn where
  | all | weekdays | weekends
  deriving DecidableEq

inductive ResStatus where
  | booked | checked_in | checked_out | canceled
  deriving DecidableEq

/-! ## Rows -/

structure Room where
  id : Nat
  number : String
  type : RoomType
  price_per_night : ℤ
  status : RoomStatus
  deriving DecidableEq

structure RateSeason where
  id : Nat
  room : Option Nat          -- FK Room, nullable
  room_type : Option RoomType
  start_date : Nat
  end_date : Nat
  price : ℤ
  apply_on : ApplyOn
  active : Bool
  deriving DecidableEq

structure Client where
  id : Nat
  first_name : String
  last_name : String
  address : Option String
  -- Billing fields added by migration 0007_billing_sync (individual/company
  -- classification and company tax data); `company` is the billing_type flag.
  company : Bool
  company_name : Option String
  company_tax_id : Option String
  deriving DecidableEq

structure Reservation where
  id : Nat
  client : Nat
  room : Nat
  check_in : Nat
  check_out : Nat
  status : ResStatus
  breakfast_included : Bool
  breakfast_price : ℤ
  updated_at : Nat           -- calendar date of the last save (auto_now)
  deriving DecidableEq

/-- Invoice line descriptions.  The source builds strings
(`f"Accommodation {room.number} — {day.isoformat()}"`,
`f"Breakfast — {day.isoformat()}"`); we keep them structured. -/
inductive Desc where
  | accommodation (roomNumber : String) (day : Nat)
  | breakfast (day : Nat)
  | other (text : String)
  deriving DecidableEq

structure Invoice where
  id : Nat
  reservation : Nat          -- OneToOneField (unique)
  client : Nat
  series : String
  number : Option Nat
  due_date : Option Nat
  total : ℤ
  -- Billing snapshot and lock added by migration 0007_billing_sync.
  locked : Bool
  billing_name : Option String
  billing_tax_id : Option String
  billing_address : Option String
  deriving DecidableEq

structure InvoiceLine where
  id : Nat
  invoice : Nat
  description : Desc
  quantity : ℤ               -- Decimal(8,2), e.g. 1.00 is 100
  unit_price : ℤ
  vat_rate : ℤ               -- percent with 2 decimals, e.g. 9.00 is 900
  total_excl_vat : ℤ
  vat_amount : ℤ
  total : ℤ
  deriving DecidableEq

/-- The stored `NightAudit.totals` JSON bag, kept structured. -/
structure AuditTotals where
  occupied_rooms : Nat
  total_rooms : Nat
  occupancy_percent : ℤ
  revenue : ℤ
  adr : ℤ
  revpar : ℤ
  arrivals : Nat
  departures : Nat
  stayovers : Nat
  no_shows : Nat
  cancellations : Nat
  deriving DecidableEq

structure NightAudit where
  date : Nat
  totals : AuditTotals
  deriving DecidableEq

/-- The database state. `nextId` models the autoincrement primary-key
sequence (a single sequence is used for all tables, which is harmless). -/
structure DB where
  rooms : List Room
  seasons : List RateSeason
  clients : List Client
  reservations : List Reservation
  invoices : List Invoice
  lines : List InvoiceLine
  audits : List NightAudit
  nextId : Nat
  deriving DecidableEq

def findRoom (db : DB) (i : Nat) : Option Room :=
  db.rooms.find? (fun x => decide (x.id = i))

def findReservation (db : DB) (i : Nat) : Option Reservation :=
  db.reservations.find? (fun x => decide (x.id = i))

def linesOf (db : DB) (invId : Nat) : List InvoiceLine :=
  db.lines.filter (fun l => decide (l.invoice = invId))

/-! ## Rate Resolver (`Room.get_price_for_date`) -/

/-- `apply_on__in=allowed_apply_on`: the season's day filter admits `d`
(`all` always; `weekdays` on Mon–Fri; `weekends` on Sat–Sun). -/
def applyOnMatches (a : ApplyOn) (d : Nat) : Bool :=
  match a with
  | .all => true
  | .weekdays => decide (pyWeekday d < 5)
  | .weekends => decide (5 ≤ pyWeekday d)

/-- Filter of the room-specific query in `get_price_for_date`. -/
def roomSeasonMatches (roomId : Nat) (d : Nat) (s : RateSeason) : Bool :=
  s.active && decide (s.room = some roomId) &&
    decide (s.start_date ≤ d) && decide (d ≤ s.end_date) &&
    applyOnMatches s.apply_on d

/-- Filter of the room-type query in `get_price_for_date`
(`room__isnull=True, room_type=self.type`). -/
def typeSeasonMatches (rt : RoomType) (d : Nat) (s : RateSeason) : Bool :=
  s.active && decide (s.room = none) && decide (s.room_type = some rt) &&
    decide (s.start_date ≤ d) && decide (d ≤ s.end_date) &&
    applyOnMatches s.apply_on d

/-- `.order_by("-start_date").first()`: a matching season with the latest
`start_date` (the first listed one, on ties). -/
def argmaxStart : List RateSeason → Option RateSeason
  | [] => none
  | s :: rest =>
    match argmaxStart rest with
    | none => some s
    | some b => if b.start_date > s.start_date then some b else some s

/-- `Room.get_price_for_date` (models.py:33–72). -/
def get_price_for_date (db : DB) (room : Room) (d : Nat) : ℤ :=
  match argmaxStart (db.seasons.filter (roomSeasonMatches room.id d)) with
  | some s => s.price
  | none =>
    match argmaxStart (db.seasons.filter (typeSeasonMatches room.type d)) with
    | some s => s.price
    | none => room.price_per_night

/-! ## Billing Engine: line computation (`InvoiceLine.compute` / `save`) -/

/-- `InvoiceLine.compute` (models.py:366–370): per-line derived amounts,
each quantized to 2 decimal places by `Decimal.quantize` (half-even).
In cents: `base = round2(quantity × unit_price)` is
`halfEvenDiv (quantity * unit_price) 100`, `vat = round2(base ×
vat_rate / 100)` is `halfEvenDiv (base * vat_rate) 10000`, and `total =
round2(base + vat)` where the quantize of an exact 2-decimal sum is the
sum itself. -/
def lineCompute (quantity unit_price vat_rate : ℤ) : ℤ × ℤ × ℤ :=
  let base := halfEvenDiv (quantity * unit_price) 100
  let vat := halfEvenDiv (base * vat_rate) 10000
  let total := base + vat
  (base, vat, total)

/-- `InvoiceLine.save`: recompute the three derived fields, then persist.
Upserts by primary key (update in place when the id exists, insert
otherwise).  Does not touch the parent invoice. -/
def lineSave (db : DB) (l : InvoiceLine) : DB :=
  let (base, vat, total) := lineCompute l.quantity l.unit_price l.vat_rate
  let l' := { l with total_excl_vat := base, vat_amount := vat, total := total }
  if db.lines.any (fun x => decide (x.id = l.id)) then
    { db with lines := db.lines.map (fun x => if x.id = l.id then l' else x) }
  else
    { db with lines := db.lines ++ [l'] }

/-- Deleting an invoice line (e.g. via the standalone admin); no signal
fires, the parent invoice is untouched. -/
def lineDelete (db : DB) (lineId : Nat) : DB :=
  { db with lines := db.lines.filter (fun x => decide (x.id ≠ lineId)) }

/-- `Invoice.compute_total` (models.py:275–279): the quantized sum of the
invoice's lines' totals — on exact 2-decimal values the final quantize is
the identity, so in cents this is the plain sum. -/
def compute_total (db : DB) (invId : Nat) : ℤ :=
  ((linesOf db invId).map (fun l => l.total)).sum

/-! ## Errors -/

inductive VKind where
  | dateRange | unavailable
  deriving DecidableEq

inductive Err where
  | validation (k : VKind)
  | integrity
  | missing
  deriving DecidableEq

/-! ## Invoice persistence (`Invoice.save`, `assign_sequential_number`,
`build_default_lines`) -/

/-- `Invoice.assign_sequential_number`'s aggregate:
`Max("number")` over the series, `or 0`. -/
def maxNumberInSeries (db : DB) (series : String) : Nat :=
  ((db.invoices.filter (fun i => decide (i.series = series))).map
    (fun i => i.number.getD 0)).foldr max 0

/-- `Reservation.nights` = `max(0, (check_out - check_in).days)`. -/
def nightsOf (r : Reservation) : Nat := r.check_out - r.check_in

/-- `InvoiceLine.objects.create(...)`: build the line (whose `save`
computes the derived fields) and insert it with a fresh id. -/
def newLine (db : DB) (invId : Nat) (d : Desc) (qty price vat : ℤ) : DB :=
  let (base, v, tot) := lineCompute qty price vat
  { db with
    lines := db.lines ++ [⟨db.nextId, invId, d, qty, price, vat, base, v, tot⟩],
    nextId := db.nextId + 1 }

/-- The per-night loop of `Invoice.build_default_lines` (models.py:237–254):
an accommodation line for each night (quantity 1.00, VAT 9.00), plus a
breakfast line when breakfast is included with a positive price. -/
def addNightLines (db0 : DB) (invId : Nat) (res : Reservation) (room : Room) : DB :=
  (List.range (nightsOf res)).foldl (fun db i =>
    let day := res.check_in + i
    let price := get_price_for_date db room day
    let db1 := newLine db invId (.accommodation room.number day) 100 price 900
    if res.breakfast_included && decide (0 < res.breakfast_price) then
      newLine db1 invId (.breakfast day) 100 res.breakfast_price 900
    else db1) db0

/-- `Invoice.build_default_lines` (models.py:223–254).  `none` models the
crash when the referenced invoice / reservation / room row is absent. -/
def buildDefaultLines (db : DB) (invId : Nat) (overwrite : Bool) : Option DB :=
  if !overwrite && db.lines.any (fun l => decide (l.invoice = invId)) then some db
  else
    let db1 :=
      if overwrite
      then { db with lines := db.lines.filter (fun l => decide (l.invoice ≠ invId)) }
      else db
    match db1.invoices.find? (fun i => decide (i.id = invId)) with
    | none => none
    | some inv =>
      match findReservation db1 inv.reservation with
      | none => none
      | some res =>
        match findRoom db1 res.room with
        | none => none
        | some room => some (addNightLines db1 invId res room)

/-- `Invoice.objects.create(reservation=…, client=…)` →
`Invoice.save` with `pk is None` (models.py:281–301): default the due
date, assign the next sequential number, insert (the one-to-one
reservation and the (series, number) uniqueness are storage constraints),
generate default lines when none exist, then persist the recomputed
total. -/
def invoiceInsert (db : DB) (today : Nat) (resId clientId : Nat) : Except Err DB :=
  let number := maxNumberInSeries db "XB" + 1
  if db.invoices.any (fun i => decide (i.reservation = resId)) then .error .integrity
  else if db.invoices.any (fun i => decide (i.series = "XB") && decide (i.number = some number))
    then .error .integrity
  else
    let invId := db.nextId
    let inv : Invoice :=
      ⟨invId, resId, clientId, "XB", some number, some today, 0, false, none, none, none⟩
    let db1 := { db with invoices := db.invoices ++ [inv], nextId := db.nextId + 1 }
    let build : Option DB :=
      if db1.lines.any (fun l => decide (l.invoice = invId)) then some db1
      else buildDefaultLines db1 invId true
    match build with
    | none => .error .missing
    | some db2 =>
      let t := compute_total db2 invId
      .ok { db2 with
        invoices := db2.invoices.map (fun i => if i.id = invId then { i with total := t } else i) }

/-- `invoice.save()` on an existing row (`pk` set, no `update_fields`),
e.g. the re-save in `InvoiceUpdateView.post`: default the due date,
assign a number if missing, write the row, then persist the recomputed
total.  No line generation (`creating` is false). -/
def invoiceSaveFull (db : DB) (today : Nat) (inv : Invoice) : Except Err DB :=
  let inv1 := { inv with
    due_date := some (inv.due_date.getD today),
    number := some (inv.number.getD (maxNumberInSeries db inv.series + 1)) }
  if db.invoices.any (fun o =>
      decide (o.id ≠ inv.id) && decide (o.reservation = inv1.reservation)) then
    .error .integrity
  else if db.invoices.any (fun o =>
      decide (o.id ≠ inv.id) && decide (o.series = inv1.series) &&
      decide (o.number = inv1.number)) then
    .error .integrity
  else
    let db1 :=
      if db.invoices.any (fun o => decide (o.id = inv.id)) then
        { db with invoices := db.invoices.map (fun o => if o.id = inv.id then inv1 else o) }
      else
        { db with invoices := db.invoices ++ [inv1] }
    let t := compute_total db1 inv.id
    .ok { db1 with
      invoices := db1.invoices.map (fun o => if o.id = inv.id then { o with total := t } else o) }

/-! ## Reservation validation and persistence (`Reservation.clean` /
`save`, signals) -/

/-- `Reservation.clean` (models.py:160–178): date ordering, then the
overlap check against other booked/checked-in reservations of the room. -/
def reservationClean (db : DB) (cand : Reservation) (excludePk : Option Nat) :
    Except Err Unit :=
  if cand.check_out ≤ cand.check_in then .error (.validation .dateRange)
  else if db.reservations.any (fun o =>
      decide (some o.id ≠ excludePk) && decide (o.room = cand.room) &&
      (decide (o.status = .booked) || decide (o.status = .checked_in)) &&
      decide (o.check_in < cand.check_out) && decide (cand.check_in < o.check_out))
    then .error (.validation .unavailable)
  else .ok ()

def setRoomStatus (db : DB) (roomId : Nat) (st : RoomStatus) : DB :=
  { db with rooms := db.rooms.map (fun x => if x.id = roomId then { x with status := st } else x) }

/-- `Reservation.objects.filter(room=room, status=CHECKED_IN).exists()`. -/
def hasCheckedIn (db : DB) (roomId : Nat) : Bool :=
  db.reservations.any (fun o => decide (o.room = roomId) && decide (o.status = .checked_in))

/-- The room-status part of `_reservation_post_save` (signals.py:35–54),
run against the post-write state with the old status recorded by the
pre-save hook (`none` for a fresh row). -/
def syncRoomOnSave (db : DB) (oldStatus : Option ResStatus) (r : Reservation) :
    Except Err DB :=
  if oldStatus = some r.status then .ok db
  else
    match findRoom db r.room with
    | none => .error .missing
    | some room =>
      match r.status with
      | .checked_in =>
        .ok (if room.status ≠ .occupied then setRoomStatus db room.id .occupied else db)
      | .checked_out =>
        .ok (if room.status ≠ .cleaning then setRoomStatus db room.id .cleaning else db)
      | .canceled =>
        if !hasCheckedIn db room.id && room.status ≠ .available
        then .ok (setRoomStatus db room.id .available)
        else .ok db
      | .booked => .ok db

structure ResInput where
  client : Nat
  room : Nat
  check_in : Nat
  check_out : Nat
  status : ResStatus
  breakfast_included : Bool
  breakfast_price : ℤ
  deriving DecidableEq

/-- Creating a reservation (`Reservation.save` with `pk is None`):
`full_clean`, insert, then the post-save signal — which auto-creates an
Invoice when none exists for the reservation, and syncs the room
status.  A raised error aborts the enclosing transaction. -/
def reservationCreate (db : DB) (today : Nat) (f : ResInput) : Except Err (DB × Nat) :=
  let rid := db.nextId
  let cand : Reservation :=
    ⟨rid, f.client, f.room, f.check_in, f.check_out, f.status,
      f.breakfast_included, f.breakfast_price, today⟩
  match reservationClean db cand none with
  | .error e => .error e
  | .ok _ =>
    let db1 := { db with reservations := db.reservations ++ [cand], nextId := db.nextId + 1 }
    let withInvoice : Except Err DB :=
      if db1.invoices.any (fun i => decide (i.reservation = rid)) then .ok db1
      else invoiceInsert db1 today rid f.client
    match withInvoice with
    | .error e => .error e
    | .ok db2 =>
      match syncRoomOnSave db2 none cand with
      | .error e => .error e
      | .ok db3 => .ok (db3, rid)

/-- `res.status = X; res.save(update_fields=["status", "updated_at"])`:
the pre-save hook records the stored status, `full_clean` runs, the row
is written, and the post-save signal syncs the room. -/
def reservationUpdateStatus (db : DB) (today : Nat) (resId : Nat)
    (newStatus : ResStatus) : Except Err DB :=
  match findReservation db resId with
  | none => .error .missing
  | some r =>
    let cand := { r with status := newStatus, updated_at := today }
    match reservationClean db cand (some resId) with
    | .error e => .error e
    | .ok _ =>
      let db1 := { db with
        reservations := db.reservations.map (fun x => if x.id = resId then cand else x) }
      syncRoomOnSave db1 (some r.status) cand

/-- Deleting a reservation: cascade to its invoice and lines, then the
post-delete signal (signals.py:57–67) re-evaluates the room status. -/
def reservationDelete (db : DB) (resId : Nat) : Except Err DB :=
  match findReservation db resId with
  | none => .error .missing
  | some r =>
    let deadInvoices := (db.invoices.filter (fun i => decide (i.reservation = resId))).map
      (fun i => i.id)
    let db1 := { db with
      reservations := db.reservations.filter (fun x => decide (x.id ≠ resId)),
      invoices := db.invoices.filter (fun i => decide (i.reservation ≠ resId)),
      lines := db.lines.filter (fun l => decide (l.invoice ∉ deadInvoices)) }
    match findRoom db1 r.room with
    | none => .error .missing
    | some room =>
      if !hasCheckedIn db1 room.id && room.status ≠ .cleaning && room.status ≠ .available
      then .ok (setRoomStatus db1 room.id .available)
      else .ok db1

/-! ## Reservation Lifecycle Presenter (`presenters.py`) -/

/-- `ReservationPresenter.create_reservation` (presenters.py:18–28):
inside one transaction, save the reservation with status booked, then
create an invoice for it.  An error rolls the whole transaction back. -/
def presenterCreate (db : DB) (today : Nat) (f : ResInput) : Except Err (DB × Nat) :=
  match reservationCreate db today { f with status := .booked } with
  | .error e => .error e
  | .ok (db1, rid) =>
    match invoiceInsert db1 today rid f.client with
    | .error e => .error e
    | .ok db2 => .ok (db2, rid)

/-- `ReservationPresenter.check_in` (presenters.py:30–40): refuse (as a
message-only no-op) for canceled/checked-out reservations; otherwise set
status and force the room occupied. -/
def presenterCheckIn (db : DB) (today : Nat) (resId : Nat) : Except Err DB :=
  match findReservation db resId with
  | none => .error .missing
  | some r =>
    if r.status = .canceled ∨ r.status = .checked_out then .ok db
    else
      match reservationUpdateStatus db today resId .checked_in with
      | .error e => .error e
      | .ok db1 => .ok (setRoomStatus db1 r.room .occupied)

/-- `ReservationPresenter.check_out` (presenters.py:42–52). -/
def presenterCheckOut (db : DB) (today : Nat) (resId : Nat) : Except Err DB :=
  match findReservation db resId with
  | none => .error .missing
  | some r =>
    if r.status ≠ .checked_in then .ok db
    else
      match reservationUpdateStatus db today resId .checked_out with
      | .error e => .error e
      | .ok db1 => .ok (setRoomStatus db1 r.room .cleaning)

/-- `ReservationPresenter.cancel` (presenters.py:60–71): no-op when
already canceled; otherwise save status=canceled (signal fires), then —
"if not checked-in, ensure room stays available" — set the room available
whenever its (post-signal) status is not occupied. -/
def presenterCancel (db : DB) (today : Nat) (resId : Nat) : Except Err DB :=
  match findReservation db resId with
  | none => .error .missing
  | some r =>
    if r.status = .canceled then .ok db
    else
      match reservationUpdateStatus db today resId .canceled with
      | .error e => .error e
      | .ok db1 =>
        match findRoom db1 r.room with
        | none => .error .missing
        | some room =>
          if room.status ≠ .occupied then .ok (setRoomStatus db1 room.id .available)
          else .ok db1

/-! ## Billing snapshot sync on client save (`_client_sync_invoices`) -/

/-- Modelled from the spec: the client's billing name — `models.py` in the
repository lacks the billing fields that migration 0007 declares, so the
derivation follows §3/§4.4 of the spec (company clients bill under the
company name, individuals under their own). -/
def clientBillingName (c : Client) : Option String :=
  if c.company then c.company_name else some (c.first_name ++ " " ++ c.last_name)

/-- Modelled from the spec: `Invoice.fill_billing_from_client`, called by
`_client_sync_invoices` (signals.py:79) but absent from `models.py` —
"invoice carries a copy of the client's billing name/tax id/address"
(§4.4): overwrite the three snapshot fields from the client. -/
def fill_billing_from_client (inv : Invoice) (c : Client) : Invoice :=
  { inv with
    billing_name := clientBillingName c,
    billing_tax_id := if c.company then c.company_tax_id else none,
    billing_address := c.address }

/-- Saving a client record: write the row, then the post-save signal
`_client_sync_invoices` (signals.py:75–80) refreshes the billing snapshot
on every *unlocked* invoice of that client via
`inv.save(update_fields=["billing_name", "billing_tax_id",
"billing_address"])` — which persists only those fields, plus the
recomputed total that `Invoice.save` always writes through a queryset
update. -/
def clientSave (db : DB) (c : Client) : DB :=
  let db0 :=
    if db.clients.any (fun x => decide (x.id = c.id)) then
      { db with clients := db.clients.map (fun x => if x.id = c.id then c else x) }
    else
      { db with clients := db.clients ++ [c] }
  { db0 with invoices := db0.invoices.map (fun i =>
      if i.client = c.id ∧ i.locked = false then
        let i1 := fill_billing_from_client i c
        { i1 with total := compute_total db0 i.id }
      else i) }

/-! ## Night Audit Engine (`views.py`: preview and close) -/

/-- An "active" reservation covering the date:
`status__in=[BOOKED, CHECKED_IN], check_in__lte=d, check_out__gt=d`. -/
def isActiveOn (d : Nat) (r : Reservation) : Bool :=
  (decide (r.status = .booked) || decide (r.status = .checked_in)) &&
    decide (r.check_in ≤ d) && decide (d < r.check_out)

def activeOn (db : DB) (d : Nat) : List Reservation :=
  db.reservations.filter (isActiveOn d)

/-- `total_rooms = rooms_qs.count() or 1`. -/
def totalRoomsOr1 (db : DB) : Nat :=
  if db.rooms.length = 0 then 1 else db.rooms.length

/-- `active_qs.values("room_id").distinct().count()`. -/
def occupiedRoomsCount (db : DB) (d : Nat) : Nat :=
  ((activeOn db d).map (fun r => r.room)).dedup.length

/-- `sum(r.room.get_price_for_date(audit_date) for r in active_qs)`. -/
def revenueOn (db : DB) (d : Nat) : ℤ :=
  ((activeOn db d).map (fun r =>
    match findRoom db r.room with
    | some room => get_price_for_date db room d
    | none => 0)).sum

/-- `int(round(occupied_rooms_count / total_rooms * 100))`. -/
def occupancyPercent (occupied totalRooms : Nat) : ℤ :=
  halfEvenDiv ((occupied : ℤ) * 100) (totalRooms : ℤ)

/-- `adr = (revenue / occupied).quantize(0.01) if occupied else 0.00`:
in cents, rounding the exact ratio to the nearest cent. -/
def adrOf (revenue : ℤ) (occupied : Nat) : ℤ :=
  if occupied = 0 then 0 else halfEvenDiv revenue (occupied : ℤ)

/-- `revpar = (revenue / total_rooms).quantize(0.01)`. -/
def revparOf (revenue : ℤ) (totalRooms : Nat) : ℤ :=
  halfEvenDiv revenue (totalRooms : ℤ)

/-- `check_in=d`, excluding canceled. -/
def arrivalsCount (db : DB) (d : Nat) : Nat :=
  (db.reservations.filter (fun r =>
    decide (r.check_in = d) && decide (r.status ≠ .canceled))).length

/-- `check_out=d`, excluding canceled. -/
def departuresCount (db : DB) (d : Nat) : Nat :=
  (db.reservations.filter (fun r =>
    decide (r.check_out = d) && decide (r.status ≠ .canceled))).length

/-- `check_in__lt=d, check_out__gt=d, status__in=[BOOKED, CHECKED_IN]`. -/
def stayoversCount (db : DB) (d : Nat) : Nat :=
  (db.reservations.filter (fun r =>
    decide (r.check_in < d) && decide (d < r.check_out) &&
    (decide (r.status = .booked) || decide (r.status = .checked_in)))).length

/-- `check_in=d, status=BOOKED` — the no-show candidates. -/
def noShowsList (db : DB) (d : Nat) : List Reservation :=
  db.reservations.filter (fun r =>
    decide (r.check_in = d) && decide (r.status = .booked))

/-- `status=CANCELED, updated_at__date=d`. -/
def cancellationsCount (db : DB) (d : Nat) : Nat :=
  (db.reservations.filter (fun r =>
    decide (r.status = .canceled) && decide (r.updated_at = d))).length

structure PreviewCtx where
  occupied_rooms_count : Nat
  total_rooms : Nat
  revenue : ℤ
  occupancy_percent : ℤ
  adr : ℤ
  revpar : ℤ
  arrivals_count : Nat
  departures_count : Nat
  stayover_count : Nat
  no_shows_count : Nat
  already_closed : Bool
  deriving DecidableEq

/-- `NightAuditPreviewView.get_context_data` (views.py:465–521), the
computed metrics part. -/
def nightAuditPreview (db : DB) (d : Nat) : PreviewCtx :=
  let totalRooms := totalRoomsOr1 db
  let occupied := occupiedRoomsCount db d
  let revenue := revenueOn db d
  { occupied_rooms_count := occupied
    total_rooms := totalRooms
    revenue := revenue
    occupancy_percent := occupancyPercent occupied totalRooms
    adr := adrOf revenue occupied
    revpar := revparOf revenue totalRooms
    arrivals_count := arrivalsCount db d
    departures_count := departuresCount db d
    stayover_count := stayoversCount db d
    no_shows_count := (noShowsList db d).length
    already_closed := db.audits.any (fun a => decide (a.date = d)) }

/-- The no-show cancellation loop of `NightAuditCloseView.post`: each
booked arrival is canceled through the presenter; a failure aborts the
whole close. -/
def cancelAll (db : DB) (today : Nat) : List Nat → Except Err DB
  | [] => .ok db
  | i :: rest =>
    match presenterCancel db today i with
    | .error e => .error e
    | .ok db1 => cancelAll db1 today rest

/-- `NightAuditCloseView.post` (views.py:526–592): refuse when the date
is already closed; otherwise compute the occupancy metrics on the
pre-close state, cancel every remaining booked arrival as a no-show, and
persist one NightAudit row.  The arrival/departure/stayover querysets are
lazy in the source, so their counts — and the cancellation count — are
evaluated on the post-cancellation state. -/
def closeNightAudit (db : DB) (auditDate today : Nat) : Except Err DB :=
  if db.audits.any (fun a => decide (a.date = auditDate)) then .ok db
  else
    let totalRooms := totalRoomsOr1 db
    let occupied := occupiedRoomsCount db auditDate
    let revenue := revenueOn db auditDate
    let noShows := noShowsList db auditDate
    match cancelAll db today (noShows.map (fun r => r.id)) with
    | .error e => .error e
    | .ok db1 =>
      let totals : AuditTotals :=
        { occupied_rooms := occupied
          total_rooms := totalRooms
          occupancy_percent := occupancyPercent occupied totalRooms
          revenue := revenue
          adr := adrOf revenue occupied
          revpar := revparOf revenue totalRooms
          arrivals := arrivalsCount db1 auditDate
          departures := departuresCount db1 auditDate
          stayovers := stayoversCount db1 auditDate
          no_shows := noShows.length
          cancellations := cancellationsCount db1 auditDate }
      .ok { db1 with audits := db1.audits ++ [⟨auditDate, totals⟩] }

/-! # Helper lemmas -/

theorem syncRoomOnSave_audits {db db' : DB} {old : Option ResStatus} {r : Reservation}
    (h : syncRoomOnSave db old r = .ok db') : db'.audits = db.audits := by
  unfold syncRoomOnSave at h
  split at h
  · cases h; rfl
  · split at h
    · cases h
    · split at h
      · cases h; split <;> rfl
      · cases h; split <;> rfl
      · split at h
        · cases h; rfl
        · cases h; rfl
      · cases h; rfl

theorem reservationUpdateStatus_audits {db db' : DB} {today resId : Nat} {st : ResStatus}
    (h : reservationUpdateStatus db today resId st = .ok db') : db'.audits = db.audits := by
  unfold reservationUpdateStatus at h
  cases hf : findReservation db resId with
  | none => rw [hf] at h; cases h
  | some r =>
    rw [hf] at h
    simp only [] at h
    cases hcl : reservationClean db { r with status := st, updated_at := today } (some resId) with
    | error e => rw [hcl] at h; cases h
    | ok u => rw [hcl] at h; exact (syncRoomOnSave_audits h).trans rfl

theorem presenterCancel_audits {db db' : DB} {today resId : Nat}
    (h : presenterCancel db today resId = .ok db') : db'.audits = db.audits := by
  unfold presenterCancel at h
  cases hf : findReservation db resId with
  | none => rw [hf] at h; cases h
  | some r =>
    rw [hf] at h
    simp only [] at h
    by_cases hcanc : r.status = ResStatus.canceled
    · rw [if_pos hcanc] at h; cases h; rfl
    · rw [if_neg hcanc] at h
      cases hu : reservationUpdateStatus db today resId .canceled with
      | error e => rw [hu] at h; cases h
      | ok db1 =>
        rw [hu] at h
        simp only [] at h
        have h1 : db1.audits = db.audits := reservationUpdateStatus_audits hu
        cases hr : findRoom db1 r.room with
        | none => rw [hr] at h; cases h
        | some room =>
          rw [hr] at h
          simp only [] at h
          by_cases ho : room.status ≠ RoomStatus.occupied
          · rw [if_pos ho] at h; cases h; exact h1
          · rw [if_neg ho] at h; cases h; exact h1

theorem cancelAll_audits {today : Nat} :
    ∀ (ids : List Nat) (db db' : DB),
      cancelAll db today ids = .ok db' → db'.audits = db.audits := by
  intro ids
  induction ids with
  | nil => intro db db' h; cases h; rfl
  | cons i rest ih =>
    intro db db' h
    unfold cancelAll at h
    cases hp : presenterCancel db today i with
    | error e => rw [hp] at h; cases h
    | ok db1 => rw [hp] at h; exact (ih _ _ h).trans (presenterCancel_audits hp)

theorem line_find_map (ls : List InvoiceLine) (i : Nat) (l' : InvoiceLine)
    (hid : l'.id = i) (h : ls.any (fun x => decide (x.id = i)) = true) :
    (ls.map (fun x => if x.id = i then l' else x)).find? (fun x => decide (x.id = i)) =
      some l' := by
  induction ls with
  | nil => simp at h
  | cons a as ih =>
    by_cases ha : a.id = i
    · simp [ha, hid]
    · have h' : (as.any fun x => decide (x.id = i)) = true := by simpa [ha] using h
      simpa [ha] using ih h'

theorem line_find_append (ls : List InvoiceLine) (i : Nat) (l' : InvoiceLine)
    (hid : l'.id = i) (h : ls.any (fun x => decide (x.id = i)) = false) :
    (ls ++ [l']).find? (fun x => decide (x.id = i)) = some l' := by
  induction ls with
  | nil => simp [hid]
  | cons a as ih =>
    simp only [List.any_cons, Bool.or_eq_false_iff] at h
    simp only [List.cons_append, List.find?_cons, h.1]
    exact ih h.2

/-! # Claims -/

/-- An empty database, and the state after closing the night audit for
date 5 on it (used as concrete inputs below). -/
def emptyDb : DB := ⟨[], [], [], [], [], [], [], 1⟩

def emptyDbClosed : DB :=
  ⟨[], [], [], [], [], [], [⟨5, ⟨0, 1, 0, 0, 0, 0, 0, 0, 0, 0, 0⟩⟩], 1⟩

/-- **C10**: the night-audit close and preview computations are total for
every database state: with zero rooms the `total_rooms` divisor is
replaced by 1, ADR is 0 whenever the occupied-room count is zero, and the
occupancy/ADR/RevPAR divisors are never zero; any audit row the close
adds records the same safely computed values. -/
theorem C10_audit_no_division_by_zero (db : DB) (d today : Nat) (db1 : DB) :
    0 < totalRoomsOr1 db ∧
    (db.rooms = [] → totalRoomsOr1 db = 1) ∧
    (nightAuditPreview db d).total_rooms = totalRoomsOr1 db ∧
    ((nightAuditPreview db d).occupied_rooms_count = 0 → (nightAuditPreview db d).adr = 0) ∧
    (occupiedRoomsCount db d = 0 → adrOf (revenueOn db d) (occupiedRoomsCount db d) = 0) ∧
    (closeNightAudit db d today = .ok db1 →
      ∀ a ∈ db1.audits, a ∉ db.audits →
        a.date = d ∧ a.totals.total_rooms = totalRoomsOr1 db ∧
        (a.totals.occupied_rooms = 0 → a.totals.adr = 0)) := by
  refine ⟨?_, ?_, rfl, ?_, ?_, ?_⟩
  · unfold totalRoomsOr1; split <;> omega
  · intro h; simp [totalRoomsOr1, h]
  · intro h
    have h' : occupiedRoomsCount db d = 0 := h
    show adrOf (revenueOn db d) (occupiedRoomsCount db d) = 0
    simp [adrOf, h']
  · intro h; simp [adrOf, h]
  · intro h
    unfold closeNightAudit at h
    by_cases hex : db.audits.any (fun a => decide (a.date = d)) = true
    · rw [if_pos hex] at h; cases h
      intro a ha hna; exact absurd ha hna
    · rw [Bool.not_eq_true] at hex
      rw [if_neg (by simp [hex])] at h
      simp only [] at h
      cases hc : cancelAll db today ((noShowsList db d).map (fun r => r.id)) with
      | error e => rw [hc] at h; cases h
      | ok dbc =>
        rw [hc] at h
        simp only [] at h
        cases h
        intro a ha hna
        have haud : dbc.audits = db.audits := cancelAll_audits _ _ _ hc
        have ha' : a ∈ dbc.audits ++
            [⟨d, ⟨occupiedRoomsCount db d, totalRoomsOr1 db,
              occupancyPercent (occupiedRoomsCount db d) (totalRoomsOr1 db),
              revenueOn db d, adrOf (revenueOn db d) (occupiedRoomsCount db d),
              revparOf (revenueOn db d) (totalRoomsOr1 db),
              arrivalsCount dbc d, departuresCount dbc d, stayoversCount dbc d,
              (noShowsList db d).length, cancellationsCount dbc d⟩⟩] := ha
        rcases List.mem_append.mp ha' with h1 | h2
        · rw [haud] at h1; exact absurd h1 hna
        · rw [List.mem_singleton] at h2
          subst h2
          refine ⟨rfl, rfl, ?_⟩
          intro hocc
          have h' : occupiedRoomsCount db d = 0 := hocc
          show adrOf (revenueOn db d) (occupiedRoomsCount db d) = 0
          simp [adrOf, h']

/-- Witness for C10 at a concrete input: closing the audit for date 5 on
an empty database appends one row with the divisor defaulted to 1 and a
zero ADR. -/
theorem C10_audit_no_division_by_zero_witness :
    (⟨5, ⟨0, 1, 0, 0, 0, 0, 0, 0, 0, 0, 0⟩⟩ : NightAudit).date = 5 ∧
    (⟨5, ⟨0, 1, 0, 0, 0, 0, 0, 0, 0, 0, 0⟩⟩ : NightAudit).totals.total_rooms =
      totalRoomsOr1 emptyDb ∧
    ((⟨5, ⟨0, 1, 0, 0, 0, 0, 0, 0, 0, 0, 0⟩⟩ : NightAudit).totals.occupied_rooms = 0 →
      (⟨5, ⟨0, 1, 0, 0, 0, 0, 0, 0, 0, 0, 0⟩⟩ : NightAudit).totals.adr = 0) :=
  (C10_audit_no_division_by_zero emptyDb 5 7 emptyDbClosed).2.2.2.2.2 rfl
    ⟨5, ⟨0, 1, 0, 0, 0, 0, 0, 0, 0, 0, 0⟩⟩ (by decide) (by decide)

/-- A stored invoice line of 0.50 × 0.25 (quantity 50, unit price 25 in
cents) at 9% VAT, and a database containing it — the concrete input
refuting C6's claimed rounding mode. -/
def spaLine : InvoiceLine := ⟨1, 1, .other "Spa", 50, 25, 900, 0, 0, 0⟩

def spaDb : DB := ⟨[], [], [], [], [], [spaLine], [], 2⟩

/-- **C6 (counterexample)**: the claim says the derived fields round
half *up* at each step.  Saving a line with quantity 0.50 and unit price
0.25 stores base 0.12 (`Decimal.quantize` rounds 0.125 half to even),
while the claimed round-half-up formula gives 0.13. -/
theorem C6_counterexample :
    ((lineSave spaDb spaLine).lines.map fun l => l.total_excl_vat) = [12] ∧
    halfUpDiv (spaLine.quantity * spaLine.unit_price) 100 = 13 ∧
    (12 : ℤ) ≠ 13 := by decide

/-- **C6 (amended)**: on every save of an InvoiceLine its three derived
fields are recomputed as base = round2(quantity × unit_price),
vat = round2(base × vat_rate / 100), total = round2(base + vat), where
round2 rounds to 2 decimal places half-to-even (banker's rounding, the
default of Python's `Decimal.quantize`) at each computation step. -/
theorem C6_line_save_recomputes_banker (db : DB) (l : InvoiceLine) :
    (lineSave db l).lines.find? (fun x => decide (x.id = l.id)) =
      some { l with
        total_excl_vat := halfEvenDiv (l.quantity * l.unit_price) 100,
        vat_amount :=
          halfEvenDiv (halfEvenDiv (l.quantity * l.unit_price) 100 * l.vat_rate) 10000,
        total := halfEvenDiv (l.quantity * l.unit_price) 100 +
          halfEvenDiv (halfEvenDiv (l.quantity * l.unit_price) 100 * l.vat_rate) 10000 } := by
  unfold lineSave lineCompute
  simp only []
  split
  case isTrue h => exact line_find_map _ _ _ rfl h
  case isFalse h => exact line_find_append _ _ _ rfl (by simpa using h)

theorem mem_map_set_total (ls : List Invoice) (invId : Nat) (t : ℤ) :
    ∀ i ∈ ls.map (fun o => if o.id = invId then { o with total := t } else o),
      i.id = invId → i.total = t := by
  intro i hi hid
  rcases List.mem_map.mp hi with ⟨o, ho, hoi⟩
  by_cases h : o.id = invId
  · rw [if_pos h] at hoi; rw [← hoi]
  · rw [if_neg h] at hoi; rw [← hoi] at hid; exact absurd hid h

/-- An invoice whose stored total matches its single line, and the state
after editing that line's unit price through `InvoiceLine.save` alone. -/
def c1Invoice : Invoice := ⟨1, 1, 1, "XB", some 1, some 100, 1090, false, none, none, none⟩

def c1Line : InvoiceLine := ⟨2, 1, .other "Night", 100, 1000, 900, 1000, 90, 1090⟩

def c1Db : DB := ⟨[], [], [], [], [c1Invoice], [c1Line], [], 3⟩

def c1DbEdited : DB := lineSave c1Db { c1Line with unit_price := 2000 }

/-- **C1 (counterexample)**: editing and saving an invoice line does not
update the parent invoice: starting from a state where the invariant
holds (total 10.90 = its one line's total), saving the line with unit
price changed to 20.00 leaves the persisted invoice total at 10.90 while
the lines now sum to 21.80. -/
theorem C1_counterexample :
    compute_total c1Db 1 = c1Invoice.total ∧
    c1DbEdited.invoices = [c1Invoice] ∧
    compute_total c1DbEdited 1 = 2180 ∧
    c1Invoice.total ≠ 2180 := by decide

/-- **C1 (amended)**: after every save of the *Invoice* itself (creation
via `Invoice.objects.create`, or a full re-save of an existing row), the
persisted total equals the sum of its lines' totals rounded to 2 decimal
places; saving an individual line alone does not restore the invariant. -/
theorem C1_invoice_total_synced_on_invoice_save (db : DB)
    (today resId clientId : Nat) (inv : Invoice) (db1 db2 : DB) :
    (invoiceInsert db today resId clientId = .ok db1 →
      ∀ i ∈ db1.invoices, i.id = db.nextId → i.total = compute_total db1 i.id) ∧
    (invoiceSaveFull db today inv = .ok db2 →
      ∀ i ∈ db2.invoices, i.id = inv.id → i.total = compute_total db2 i.id) := by
  constructor
  · intro h
    unfold invoiceInsert at h
    simp only [] at h
    split at h
    · cases h
    · split at h
      · cases h
      · split at h
        · cases h
        · rename_i dbB heq
          cases h
          intro i hi hid
          exact (mem_map_set_total _ _ _ i hi hid).trans (by rw [hid]; rfl)
  · intro h
    unfold invoiceSaveFull at h
    simp only [] at h
    split at h
    · cases h
    · split at h
      · cases h
      · cases h
        intro i hi hid
        exact (mem_map_set_total _ _ _ i hi hid).trans (by rw [hid]; rfl)

/-- Concrete inputs for the C1 witness: a room, a booked two-night
reservation, the invoice creation for it, and a re-save of the resulting
invoice row with a stale in-memory total. -/
def c1wRoom : Room := ⟨1, "101", .double, 10000, .available⟩

def c1wRes : Reservation := ⟨2, 1, 1, 700, 702, .booked, false, 0, 700⟩

def c1wDb : DB := ⟨[c1wRoom], [], [], [c1wRes], [], [], [], 5⟩

def c1wDb1 : DB :=
  ⟨[c1wRoom], [], [], [c1wRes],
   [⟨5, 2, 1, "XB", some 1, some 700, 21800, false, none, none, none⟩],
   [⟨6, 5, .accommodation "101" 700, 100, 10000, 900, 10000, 900, 10900⟩,
    ⟨7, 5, .accommodation "101" 701, 100, 10000, 900, 10000, 900, 10900⟩],
   [], 8⟩

def c1wStale : Invoice := ⟨5, 2, 1, "XB", some 1, some 700, 0, false, none, none, none⟩

/-- Witness for C1 at concrete inputs: creating the invoice for a
two-night stay at 100.00/night persists total 218.00 = the sum of its
generated lines, and a full invoice re-save restores the invariant. -/
theorem C1_invoice_total_synced_on_invoice_save_witness :
    (∀ i ∈ c1wDb1.invoices, i.id = c1wDb.nextId → i.total = compute_total c1wDb1 i.id) ∧
    (∀ i ∈ c1wDb1.invoices, i.id = c1wStale.id → i.total = compute_total c1wDb1 i.id) :=
  ⟨(C1_invoice_total_synced_on_invoice_save c1wDb 700 2 1 c1wStale c1wDb1 c1wDb1).1 rfl,
   (C1_invoice_total_synced_on_invoice_save c1wDb1 700 2 1 c1wStale c1wDb1 c1wDb1).2 rfl⟩

theorem overlap_iff_day (a b c e : Nat) (hab : a < b) (hce : c < e) :
    (c < b ∧ a < e) ↔ ∃ day, c ≤ day ∧ day < e ∧ a ≤ day ∧ day < b := by
  constructor
  · intro h
    refine ⟨max a c, le_max_right _ _, by omega, le_max_left _ _, by omega⟩
  · rintro ⟨day, h1, h2, h3, h4⟩
    omega

/-- **C4**: validation of a candidate reservation fails with the
invalid-date-range error iff check_in ≥ check_out; it fails with the
room-unavailable error iff the dates are valid and some other reservation
(excluding the candidate's own identity) for the same room with status
booked or checked-in has a half-open stay interval sharing a day with the
candidate's; otherwise it succeeds. -/
theorem C4_validation_iff (db : DB) (cand : Reservation) (excludePk : Option Nat)
    (hdates : ∀ o ∈ db.reservations, o.check_in < o.check_out) :
    (reservationClean db cand excludePk = .error (.validation .dateRange) ↔
      cand.check_out ≤ cand.check_in) ∧
    (reservationClean db cand excludePk = .error (.validation .unavailable) ↔
      cand.check_in < cand.check_out ∧
      ∃ o ∈ db.reservations, some o.id ≠ excludePk ∧ o.room = cand.room ∧
        (o.status = .booked ∨ o.status = .checked_in) ∧
        ∃ day : Nat, o.check_in ≤ day ∧ day < o.check_out ∧
          cand.check_in ≤ day ∧ day < cand.check_out) ∧
    (reservationClean db cand excludePk = .ok () ↔
      cand.check_in < cand.check_out ∧
      ¬ ∃ o ∈ db.reservations, some o.id ≠ excludePk ∧ o.room = cand.room ∧
        (o.status = .booked ∨ o.status = .checked_in) ∧
        ∃ day : Nat, o.check_in ≤ day ∧ day < o.check_out ∧
          cand.check_in ≤ day ∧ day < cand.check_out) := by
  have key : ∀ o ∈ db.reservations, cand.check_in < cand.check_out →
      (((o.check_in < cand.check_out) ∧ (cand.check_in < o.check_out)) ↔
        ∃ day : Nat, o.check_in ≤ day ∧ day < o.check_out ∧
          cand.check_in ≤ day ∧ day < cand.check_out) := by
    intro o ho hc
    exact overlap_iff_day cand.check_in cand.check_out o.check_in o.check_out hc
      (hdates o ho)
  unfold reservationClean
  by_cases hd : cand.check_out ≤ cand.check_in
  · rw [if_pos hd]
    refine ⟨by simp [hd], ?_, ?_⟩
    · constructor
      · intro h; cases h
      · rintro ⟨hc, -⟩; omega
    · constructor
      · intro h; cases h
      · rintro ⟨hc, -⟩; omega
  · rw [if_neg hd]
    push_neg at hd
    by_cases hov : (db.reservations.any (fun o =>
        decide (some o.id ≠ excludePk) && decide (o.room = cand.room) &&
        (decide (o.status = .booked) || decide (o.status = .checked_in)) &&
        decide (o.check_in < cand.check_out) && decide (cand.check_in < o.check_out))) = true
    · rw [if_pos hov]
      rcases List.any_eq_true.mp hov with ⟨o, ho, hcond⟩
      simp only [Bool.and_eq_true, Bool.or_eq_true, decide_eq_true_eq] at hcond
      obtain ⟨⟨⟨⟨h1, h2⟩, h3⟩, h4⟩, h5⟩ := hcond
      have hday := (key o ho hd).mp ⟨h4, h5⟩
      refine ⟨?_, ?_, ?_⟩
      · constructor
        · intro h; cases h
        · intro h; omega
      · constructor
        · intro _
          exact ⟨hd, o, ho, h1, h2, h3, hday⟩
        · intro _; rfl
      · constructor
        · intro h; cases h
        · rintro ⟨-, hno⟩
          exact absurd ⟨o, ho, h1, h2, h3, hday⟩ hno
    · rw [if_neg hov]
      rw [Bool.not_eq_true, List.any_eq_false] at hov
      have hnone : ¬ ∃ o ∈ db.reservations, some o.id ≠ excludePk ∧ o.room = cand.room ∧
          (o.status = .booked ∨ o.status = .checked_in) ∧
          ∃ day : Nat, o.check_in ≤ day ∧ day < o.check_out ∧
            cand.check_in ≤ day ∧ day < cand.check_out := by
        rintro ⟨o, ho, h1, h2, h3, hday⟩
        have hcond := hov o ho
        simp only [Bool.and_eq_true, Bool.or_eq_true, decide_eq_true_eq] at hcond
        have hb := (key o ho hd).mpr hday
        exact hcond ⟨⟨⟨⟨h1, h2⟩, h3⟩, hb.1⟩, hb.2⟩
      refine ⟨?_, ?_, ?_⟩
      · constructor
        · intro h; cases h
        · intro h; omega
      · constructor
        · intro h; cases h
        · rintro ⟨-, hex⟩; exact absurd hex hnone
      · exact ⟨fun _ => ⟨hd, hnone⟩, fun _ => rfl⟩

/-- Concrete inputs for the C4 witness: one booked reservation for room 1
over days [10, 13), and a candidate for the same room over [11, 14). -/
def c4Other : Reservation := ⟨1, 1, 1, 10, 13, .booked, false, 0, 9⟩

def c4Db : DB := ⟨[], [], [], [c4Other], [], [], [], 2⟩

def c4Cand : Reservation := ⟨2, 1, 1, 11, 14, .booked, false, 0, 9⟩

/-- Witness for C4 at concrete inputs: the overlapping candidate is
rejected as room-unavailable, and only for that reason. -/
theorem C4_validation_iff_witness :
    (reservationClean c4Db c4Cand none = .error (.validation .dateRange) ↔
      c4Cand.check_out ≤ c4Cand.check_in) ∧
    (reservationClean c4Db c4Cand none = .error (.validation .unavailable) ↔
      c4Cand.check_in < c4Cand.check_out ∧
      ∃ o ∈ c4Db.reservations, some o.id ≠ none ∧ o.room = c4Cand.room ∧
        (o.status = .booked ∨ o.status = .checked_in) ∧
        ∃ day : Nat, o.check_in ≤ day ∧ day < o.check_out ∧
          c4Cand.check_in ≤ day ∧ day < c4Cand.check_out) ∧
    (reservationClean c4Db c4Cand none = .ok () ↔
      c4Cand.check_in < c4Cand.check_out ∧
      ¬ ∃ o ∈ c4Db.reservations, some o.id ≠ none ∧ o.room = c4Cand.room ∧
        (o.status = .booked ∨ o.status = .checked_in) ∧
        ∃ day : Nat, o.check_in ≤ day ∧ day < o.check_out ∧
          c4Cand.check_in ≤ day ∧ day < c4Cand.check_out) :=
  C4_validation_iff c4Db c4Cand none (by decide)

theorem argmaxStart_eq_none {l : List RateSeason} : argmaxStart l = none ↔ l = [] := by
  cases l with
  | nil => simp [argmaxStart]
  | cons s rest =>
    simp only [argmaxStart]
    constructor
    · intro h
      cases hr : argmaxStart rest with
      | none => rw [hr] at h; cases h
      | some b =>
        rw [hr] at h
        simp only [] at h
        by_cases hc : b.start_date > s.start_date
        · rw [if_pos hc] at h; cases h
        · rw [if_neg hc] at h; cases h
    · intro h; cases h

theorem argmaxStart_mem : ∀ {l : List RateSeason} {s : RateSeason},
    argmaxStart l = some s → s ∈ l := by
  intro l
  induction l with
  | nil => intro s h; cases h
  | cons a rest ih =>
    intro s h
    simp only [argmaxStart] at h
    cases hr : argmaxStart rest with
    | none => rw [hr] at h; cases h; exact List.mem_cons_self _ _
    | some b =>
      rw [hr] at h
      simp only [] at h
      by_cases hc : b.start_date > a.start_date
      · rw [if_pos hc] at h; cases h; exact List.mem_cons_of_mem _ (ih hr)
      · rw [if_neg hc] at h; cases h; exact List.mem_cons_self _ _

theorem argmaxStart_max : ∀ {l : List RateSeason} {s : RateSeason},
    argmaxStart l = some s → ∀ t ∈ l, t.start_date ≤ s.start_date := by
  intro l
  induction l with
  | nil => intro s h; cases h
  | cons a rest ih =>
    intro s h t ht
    simp only [argmaxStart] at h
    cases hr : argmaxStart rest with
    | none =>
      rw [hr] at h; cases h
      have : rest = [] := argmaxStart_eq_none.mp hr
      subst this
      rcases List.mem_cons.mp ht with h1 | h1
      · rw [h1]
      · cases h1
    | some b =>
      rw [hr] at h
      simp only [] at h
      by_cases hc : b.start_date > a.start_date
      · rw [if_pos hc] at h; cases h
        rcases List.mem_cons.mp ht with h1 | h1
        · rw [h1]; omega
        · exact ih hr t h1
      · rw [if_neg hc] at h; cases h
        rcases List.mem_cons.mp ht with h1 | h1
        · rw [h1]
        · have := ih hr t h1; omega

/-- The season filter of the room-specific query, phrased as the spec
does: active, targeting exactly this room, covering the date, with the
apply-on filter matching the date's weekday class (weekday = Mon–Fri,
weekend = Sat–Sun). -/
def SpecRoomMatch (roomId : Nat) (d : Nat) (s : RateSeason) : Prop :=
  s.active = true ∧ s.room = some roomId ∧ s.start_date ≤ d ∧ d ≤ s.end_date ∧
    (s.apply_on = .all ∨ (s.apply_on = .weekdays ∧ pyWeekday d < 5) ∨
     (s.apply_on = .weekends ∧ 5 ≤ pyWeekday d))

/-- The season filter of the room-type query, phrased as the spec does:
as above but targeting the room's type with `room` unset. -/
def SpecTypeMatch (rt : RoomType) (d : Nat) (s : RateSeason) : Prop :=
  s.active = true ∧ s.room = none ∧ s.room_type = some rt ∧
    s.start_date ≤ d ∧ d ≤ s.end_date ∧
    (s.apply_on = .all ∨ (s.apply_on = .weekdays ∧ pyWeekday d < 5) ∨
     (s.apply_on = .weekends ∧ 5 ≤ pyWeekday d))

theorem roomSeasonMatches_iff {roomId d : Nat} {s : RateSeason} :
    roomSeasonMatches roomId d s = true ↔ SpecRoomMatch roomId d s := by
  unfold roomSeasonMatches SpecRoomMatch applyOnMatches
  cases happ : s.apply_on <;>
    simp [happ, Bool.and_eq_true, decide_eq_true_eq, and_assoc]

theorem typeSeasonMatches_iff {rt : RoomType} {d : Nat} {s : RateSeason} :
    typeSeasonMatches rt d s = true ↔ SpecTypeMatch rt d s := by
  unfold typeSeasonMatches SpecTypeMatch applyOnMatches
  cases happ : s.apply_on <;>
    simp [happ, Bool.and_eq_true, decide_eq_true_eq, and_assoc]

/-- **C3**: `get_price_for_date` resolves, in order: an active
room-specific season covering the date with a matching apply-on filter
(latest start_date winning); otherwise an active season for the room's
type with `room` unset (latest start_date winning); otherwise the room's
base nightly price — and one of the three cases always applies, so a
price is always returned. -/
theorem C3_price_resolution (db : DB) (room : Room) (d : Nat) :
    (∃ s ∈ db.seasons, SpecRoomMatch room.id d s ∧
      (∀ t ∈ db.seasons, SpecRoomMatch room.id d t → t.start_date ≤ s.start_date) ∧
      get_price_for_date db room d = s.price) ∨
    ((∀ s ∈ db.seasons, ¬ SpecRoomMatch room.id d s) ∧
      ∃ s ∈ db.seasons, SpecTypeMatch room.type d s ∧
        (∀ t ∈ db.seasons, SpecTypeMatch room.type d t → t.start_date ≤ s.start_date) ∧
        get_price_for_date db room d = s.price) ∨
    ((∀ s ∈ db.seasons, ¬ SpecRoomMatch room.id d s) ∧
      (∀ s ∈ db.seasons, ¬ SpecTypeMatch room.type d s) ∧
      get_price_for_date db room d = room.price_per_night) := by
  cases h1 : argmaxStart (db.seasons.filter (roomSeasonMatches room.id d)) with
  | some s =>
    left
    have hmem := argmaxStart_mem h1
    have hmax := argmaxStart_max h1
    rcases List.mem_filter.mp hmem with ⟨hs_mem, hs_cond⟩
    refine ⟨s, hs_mem, roomSeasonMatches_iff.mp hs_cond, ?_, ?_⟩
    · intro t ht hcond
      exact hmax t (List.mem_filter.mpr ⟨ht, roomSeasonMatches_iff.mpr hcond⟩)
    · unfold get_price_for_date
      rw [h1]
  | none =>
    have hempty1 := argmaxStart_eq_none.mp h1
    have hall1 : ∀ s ∈ db.seasons, ¬ SpecRoomMatch room.id d s := by
      intro s hs hcond
      have : s ∈ db.seasons.filter (roomSeasonMatches room.id d) :=
        List.mem_filter.mpr ⟨hs, roomSeasonMatches_iff.mpr hcond⟩
      rw [hempty1] at this
      cases this
    cases h2 : argmaxStart (db.seasons.filter (typeSeasonMatches room.type d)) with
    | some s =>
      right; left
      have hmem := argmaxStart_mem h2
      have hmax := argmaxStart_max h2
      rcases List.mem_filter.mp hmem with ⟨hs_mem, hs_cond⟩
      refine ⟨hall1, s, hs_mem, typeSeasonMatches_iff.mp hs_cond, ?_, ?_⟩
      · intro t ht hcond
        exact hmax t (List.mem_filter.mpr ⟨ht, typeSeasonMatches_iff.mpr hcond⟩)
      · unfold get_price_for_date
        rw [h1, h2]
    | none =>
      right; right
      have hempty2 := argmaxStart_eq_none.mp h2
      have hall2 : ∀ s ∈ db.seasons, ¬ SpecTypeMatch room.type d s := by
        intro s hs hcond
        have : s ∈ db.seasons.filter (typeSeasonMatches room.type d) :=
          List.mem_filter.mpr ⟨hs, typeSeasonMatches_iff.mpr hcond⟩
        rw [hempty2] at this
        cases this
      refine ⟨hall1, hall2, ?_⟩
      unfold get_price_for_date
      rw [h1, h2]

/-- **C9**: whenever a client record is saved, every unlocked invoice of
that client has its billing snapshot fields resynced to the client's new
values (its persisted total is also rewritten, to the recomputed sum of
its lines, as `Invoice.save` always does), while every locked invoice —
and every invoice of another client — is left entirely unchanged. -/
theorem C9_client_billing_sync (db : DB) (c : Client) :
    ∀ inv ∈ db.invoices,
      ((inv.locked = true ∨ inv.client ≠ c.id) → inv ∈ (clientSave db c).invoices) ∧
      (inv.locked = false → inv.client = c.id →
        { inv with
            billing_name := clientBillingName c,
            billing_tax_id := if c.company then c.company_tax_id else none,
            billing_address := c.address,
            total := compute_total db inv.id } ∈ (clientSave db c).invoices) := by
  intro inv hmem
  unfold clientSave
  simp only []
  constructor
  · intro h
    by_cases hcl : db.clients.any (fun x => decide (x.id = c.id)) = true
    · rw [if_pos hcl]
      refine List.mem_map.mpr ⟨inv, hmem, ?_⟩
      rw [if_neg]
      rintro ⟨h1, h2⟩
      rcases h with h | h
      · rw [h2] at h; cases h
      · exact h h1
    · rw [if_neg hcl]
      refine List.mem_map.mpr ⟨inv, hmem, ?_⟩
      rw [if_neg]
      rintro ⟨h1, h2⟩
      rcases h with h | h
      · rw [h2] at h; cases h
      · exact h h1
  · intro h1 h2
    by_cases hcl : db.clients.any (fun x => decide (x.id = c.id)) = true
    · rw [if_pos hcl]
      refine List.mem_map.mpr ⟨inv, hmem, ?_⟩
      rw [if_pos ⟨h2, h1⟩]
      rfl
    · rw [if_neg hcl]
      refine List.mem_map.mpr ⟨inv, hmem, ?_⟩
      rw [if_pos ⟨h2, h1⟩]
      rfl

/-- Concrete inputs for the C9 witness: a client edit, one unlocked and
one locked invoice of that client. -/
def c9Client : Client := ⟨1, "Ana", "Pop", some "Str. A 1", false, none, none⟩

def c9InvUnlocked : Invoice := ⟨1, 1, 1, "XB", some 1, some 10, 0, false, some "Old", none, none⟩

def c9InvLocked : Invoice := ⟨2, 2, 1, "XB", some 2, some 10, 0, true, some "Old", none, none⟩

def c9Db : DB :=
  ⟨[], [], [⟨1, "Old", "Name", none, false, none, none⟩], [],
   [c9InvUnlocked, c9InvLocked], [], [], 3⟩

/-- Witness for C9 at concrete inputs: after saving the client, the
locked invoice survives unchanged and the unlocked one carries the new
billing snapshot. -/
theorem C9_client_billing_sync_witness :
    (c9InvLocked ∈ (clientSave c9Db c9Client).invoices) ∧
    ({ c9InvUnlocked with
        billing_name := clientBillingName c9Client,
        billing_tax_id := if c9Client.company then c9Client.company_tax_id else none,
        billing_address := c9Client.address,
        total := compute_total c9Db c9InvUnlocked.id } ∈
      (clientSave c9Db c9Client).invoices) :=
  ⟨(C9_client_billing_sync c9Db c9Client c9InvLocked (by decide)).1 (Or.inl rfl),
   (C9_client_billing_sync c9Db c9Client c9InvUnlocked (by decide)).2 rfl rfl⟩

/-- The caller-visible data of an invoice line (description, quantity,
unit price, VAT rate). -/
def lineData (l : InvoiceLine) : Desc × ℤ × ℤ × ℤ :=
  (l.description, l.quantity, l.unit_price, l.vat_rate)

/-- The lines the spec expects for one night of a reservation: one
accommodation line at the resolver's price, plus a breakfast line when
breakfast is included with a positive per-night price, all at 9% VAT. -/
def expectedNight (db : DB) (room : Room) (res : Reservation) (i : Nat) :
    List (Desc × ℤ × ℤ × ℤ) :=
  (Desc.accommodation room.number (res.check_in + i), (100 : ℤ),
    get_price_for_date db room (res.check_in + i), (900 : ℤ)) ::
  (if res.breakfast_included = true ∧ 0 < res.breakfast_price then
    [(Desc.breakfast (res.check_in + i), (100 : ℤ), res.breakfast_price, (900 : ℤ))]
  else [])

theorem get_price_congr {a b : DB} (h : a.seasons = b.seasons) (room : Room) (d : Nat) :
    get_price_for_date a room d = get_price_for_date b room d := by
  unfold get_price_for_date
  rw [h]

theorem linesOf_newLine (db : DB) (invId : Nat) (d : Desc) (q p v : ℤ) :
    linesOf (newLine db invId d q p v) invId =
      linesOf db invId ++ [⟨db.nextId, invId, d, q, p, v,
        halfEvenDiv (q * p) 100, halfEvenDiv (halfEvenDiv (q * p) 100 * v) 10000,
        halfEvenDiv (q * p) 100 + halfEvenDiv (halfEvenDiv (q * p) 100 * v) 10000⟩] := by
  unfold newLine lineCompute linesOf
  simp [List.filter_append]

theorem nightLoop_spec (invId : Nat) (res : Reservation) (room : Room)
    (n : Nat) (db0 : DB) :
    ((List.range n).foldl (fun db i =>
        let day := res.check_in + i
        let price := get_price_for_date db room day
        let db1 := newLine db invId (.accommodation room.number day) 100 price 900
        if res.breakfast_included && decide (0 < res.breakfast_price) then
          newLine db1 invId (.breakfast day) 100 res.breakfast_price 900
        else db1) db0).seasons = db0.seasons ∧
    (linesOf ((List.range n).foldl (fun db i =>
        let day := res.check_in + i
        let price := get_price_for_date db room day
        let db1 := newLine db invId (.accommodation room.number day) 100 price 900
        if res.breakfast_included && decide (0 < res.breakfast_price) then
          newLine db1 invId (.breakfast day) 100 res.breakfast_price 900
        else db1) db0) invId).map lineData =
      (linesOf db0 invId).map lineData ++
        (List.range n).flatMap (expectedNight db0 room res) := by
  induction n with
  | zero => simp
  | succ n ih =>
    rw [List.range_succ, List.foldl_append, List.foldl_cons, List.foldl_nil]
    obtain ⟨hs, hl⟩ := ih
    simp only []
    by_cases hb : (res.breakfast_included && decide (0 < res.breakfast_price)) = true
    · rw [if_pos hb]
      have hbp : res.breakfast_included = true ∧ 0 < res.breakfast_price := by
        simpa [Bool.and_eq_true, decide_eq_true_eq] using hb
      refine ⟨hs, ?_⟩
      rw [linesOf_newLine, linesOf_newLine, List.map_append, List.map_append, hl,
        List.flatMap_append, List.append_assoc, List.append_assoc]
      congr 1
      congr 1
      simp only [List.flatMap_cons, List.flatMap_nil, List.append_nil]
      unfold expectedNight
      rw [if_pos hbp]
      simp only [lineData, List.map_cons, List.map_nil, List.cons_append, List.nil_append]
      rw [get_price_congr hs room (res.check_in + n)]
    · rw [if_neg hb]
      have hbp : ¬ (res.breakfast_included = true ∧ 0 < res.breakfast_price) := by
        intro hcontra
        exact hb (by simp [Bool.and_eq_true, decide_eq_true_eq, hcontra.1, hcontra.2])
      refine ⟨hs, ?_⟩
      rw [linesOf_newLine, List.map_append, hl, List.flatMap_append, List.append_assoc]
      congr 1
      congr 1
      simp only [List.flatMap_cons, List.flatMap_nil, List.append_nil]
      unfold expectedNight
      rw [if_neg hbp]
      simp only [lineData, List.map_cons, List.map_nil]
      rw [get_price_congr hs room (res.check_in + n)]

theorem linesOf_filter_out (db : DB) (invId : Nat) :
    linesOf { db with lines := db.lines.filter (fun l => decide (l.invoice ≠ invId)) }
      invId = [] := by
  unfold linesOf
  simp only []
  rw [List.filter_filter]
  simp

theorem buildDefaultLines_overwrite_eq (db : DB) (invId : Nat) (inv : Invoice)
    (res : Reservation) (room : Room)
    (hinv : db.invoices.find? (fun i => decide (i.id = invId)) = some inv)
    (hres : findReservation db inv.reservation = some res)
    (hroom : findRoom db res.room = some room) :
    buildDefaultLines db invId true =
      some (addNightLines
        { db with lines := db.lines.filter (fun l => decide (l.invoice ≠ invId)) }
        invId res room) := by
  have hres' : db.reservations.find? (fun x => decide (x.id = inv.reservation)) =
    some res := hres
  have hroom' : db.rooms.find? (fun x => decide (x.id = res.room)) = some room := hroom
  unfold buildDefaultLines findReservation findRoom
  simp only [Bool.not_true, Bool.false_and, Bool.false_eq_true, if_false, if_true,
    hinv, hres', hroom']

/-- **C7**: generating invoice lines for a reservation produces, per
night, exactly one accommodation line (quantity 1, unit price from the
rate resolver for that night, VAT 9%) followed by one breakfast line at
the same VAT rate exactly when breakfast is included with a positive
per-night price; and when lines already exist and overwrite is not
requested the operation changes nothing. -/
theorem C7_generate_lines (db : DB) (invId : Nat) (inv : Invoice) (res : Reservation)
    (room : Room) (db' : DB)
    (hinv : db.invoices.find? (fun i => decide (i.id = invId)) = some inv)
    (hres : findReservation db inv.reservation = some res)
    (hroom : findRoom db res.room = some room) :
    (db.lines.any (fun l => decide (l.invoice = invId)) = true →
      buildDefaultLines db invId false = some db) ∧
    (buildDefaultLines db invId true = some db' →
      (linesOf db' invId).map lineData =
        (List.range (nightsOf res)).flatMap (expectedNight db room res)) := by
  constructor
  · intro hexists
    unfold buildDefaultLines
    rw [if_pos (by simp [hexists])]
  · intro h
    rw [buildDefaultLines_overwrite_eq db invId inv res room hinv hres hroom] at h
    cases h
    have key := nightLoop_spec invId res room (nightsOf res)
      { db with lines := db.lines.filter (fun l => decide (l.invoice ≠ invId)) }
    have h2 : (linesOf (addNightLines
        { db with lines := db.lines.filter (fun l => decide (l.invoice ≠ invId)) }
        invId res room) invId).map lineData =
        (linesOf { db with lines := db.lines.filter (fun l => decide (l.invoice ≠ invId)) }
          invId).map lineData ++
        (List.range (nightsOf res)).flatMap (expectedNight
          { db with lines := db.lines.filter (fun l => decide (l.invoice ≠ invId)) }
          room res) := key.2
    rw [h2, linesOf_filter_out db invId]
    simp only [List.map_nil, List.nil_append]
    rfl

/-- The state after regenerating the lines of invoice 5 in `c1wDb1` with
overwrite (fresh line ids, same content). -/
def c7Db1 : DB :=
  ⟨[c1wRoom], [], [], [c1wRes],
   [⟨5, 2, 1, "XB", some 1, some 700, 21800, false, none, none, none⟩],
   [⟨8, 5, .accommodation "101" 700, 100, 10000, 900, 10000, 900, 10900⟩,
    ⟨9, 5, .accommodation "101" 701, 100, 10000, 900, 10000, 900, 10900⟩],
   [], 10⟩

/-- Witness for C7 at concrete inputs: on the two-night reservation the
generator is a no-op when lines exist without overwrite, and with
overwrite emits exactly one accommodation line per night at the
resolver's price and 9% VAT. -/
theorem C7_generate_lines_witness :
    (buildDefaultLines c1wDb1 5 false = some c1wDb1) ∧
    ((linesOf c7Db1 5).map lineData =
      (List.range (nightsOf c1wRes)).flatMap (expectedNight c1wDb1 c1wRoom c1wRes)) :=
  ⟨(C7_generate_lines c1wDb1 5
      ⟨5, 2, 1, "XB", some 1, some 700, 21800, false, none, none, none⟩
      c1wRes c1wRoom c7Db1 (by decide) (by decide) (by decide)).1 (by decide),
   (C7_generate_lines c1wDb1 5
      ⟨5, 2, 1, "XB", some 1, some 700, 21800, false, none, none, none⟩
      c1wRes c1wRoom c7Db1 (by decide) (by decide) (by decide)).2 rfl⟩

theorem findRoom_id {db : DB} {i : Nat} {room : Room} (h : findRoom db i = some room) :
    room.id = i := by
  have := List.find?_some h
  simpa using this

theorem find?_map_room (ls : List Room) (i : Nat) (st : RoomStatus) {room : Room}
    (h : ls.find? (fun x => decide (x.id = i)) = some room) :
    (ls.map (fun x => if x.id = i then { x with status := st } else x)).find?
      (fun x => decide (x.id = i)) = some { room with status := st } := by
  induction ls with
  | nil => cases h
  | cons a as ih =>
    by_cases ha : a.id = i
    · rw [List.find?_cons_of_pos _ (by simpa using ha)] at h
      cases h
      rw [List.map_cons, if_pos ha, List.find?_cons_of_pos _ (by simpa using ha)]
    · rw [List.find?_cons_of_neg _ (by simpa using ha)] at h
      rw [List.map_cons, if_neg ha, List.find?_cons_of_neg _ (by simpa using ha)]
      exact ih h

theorem findRoom_setRoomStatus {db : DB} {i : Nat} (st : RoomStatus) {room : Room}
    (h : findRoom db i = some room) :
    findRoom (setRoomStatus db i st) i = some { room with status := st } := by
  have h' : db.rooms.find? (fun x => decide (x.id = i)) = some room := h
  exact find?_map_room db.rooms i st h' 

theorem room_eta {room : Room} {st : RoomStatus} (h : room.status = st) :
    some room = some { room with status := st } := by
  cases room
  cases h
  rfl

theorem hasCheckedIn_setRoomStatus (db : DB) (i : Nat) (st : RoomStatus) (j : Nat) :
    hasCheckedIn (setRoomStatus db i st) j = hasCheckedIn db j := rfl

/-- The state written by `res.save(update_fields=["status", "updated_at"])`
before the post-save signal runs. -/
def writeStatus (db : DB) (today resId : Nat) (r : Reservation) (st : ResStatus) : DB :=
  { db with reservations := db.reservations.map (fun x =>
      if x.id = resId then { r with status := st, updated_at := today } else x) }

theorem updateStatus_ok_shape {db db' : DB} {today resId : Nat} {st : ResStatus}
    {r : Reservation} (hr : findReservation db resId = some r)
    (h : reservationUpdateStatus db today resId st = .ok db') :
    syncRoomOnSave (writeStatus db today resId r st)
      (some r.status) { r with status := st, updated_at := today } = .ok db' := by
  unfold reservationUpdateStatus at h
  rw [hr] at h
  simp only [] at h
  cases hcl : reservationClean db { r with status := st, updated_at := today }
      (some resId) with
  | error e => rw [hcl] at h; cases h
  | ok u => rw [hcl] at h; simp only [] at h; exact h

theorem sync_checked_in {db1 db' : DB} {old : ResStatus} {cand : Reservation}
    {room1 : Room} (hroom : findRoom db1 cand.room = some room1)
    (hne : old ≠ cand.status) (hst : cand.status = .checked_in)
    (h : syncRoomOnSave db1 (some old) cand = .ok db') :
    findRoom db' cand.room = some { room1 with status := .occupied } := by
  unfold syncRoomOnSave at h
  rw [if_neg (by simp [hne])] at h
  rw [hroom] at h
  simp only [] at h
  rw [hst] at h
  simp only [] at h
  by_cases ho : room1.status ≠ RoomStatus.occupied
  · rw [if_pos ho] at h
    cases h
    rw [← findRoom_id hroom]
    exact findRoom_setRoomStatus _ (by rw [findRoom_id hroom]; exact hroom)
  · rw [if_neg ho] at h
    cases h
    push_neg at ho
    rw [hroom]
    exact room_eta ho

theorem sync_checked_out {db1 db' : DB} {old : ResStatus} {cand : Reservation}
    {room1 : Room} (hroom : findRoom db1 cand.room = some room1)
    (hne : old ≠ cand.status) (hst : cand.status = .checked_out)
    (h : syncRoomOnSave db1 (some old) cand = .ok db') :
    findRoom db' cand.room = some { room1 with status := .cleaning } := by
  unfold syncRoomOnSave at h
  rw [if_neg (by simp [hne])] at h
  rw [hroom] at h
  simp only [] at h
  rw [hst] at h
  simp only [] at h
  by_cases ho : room1.status ≠ RoomStatus.cleaning
  · rw [if_pos ho] at h
    cases h
    rw [← findRoom_id hroom]
    exact findRoom_setRoomStatus _ (by rw [findRoom_id hroom]; exact hroom)
  · rw [if_neg ho] at h
    cases h
    push_neg at ho
    rw [hroom]
    exact room_eta ho

theorem sync_canceled {db1 db' : DB} {old : ResStatus} {cand : Reservation}
    {room1 : Room} (hroom : findRoom db1 cand.room = some room1)
    (hne : old ≠ cand.status) (hst : cand.status = .canceled)
    (h : syncRoomOnSave db1 (some old) cand = .ok db') :
    db'.reservations = db1.reservations ∧
    (hasCheckedIn db1 cand.room = false →
      findRoom db' cand.room = some { room1 with status := .available }) ∧
    (hasCheckedIn db1 cand.room = true → findRoom db' cand.room = some room1) := by
  unfold syncRoomOnSave at h
  rw [if_neg (by simp [hne])] at h
  rw [hroom] at h
  simp only [] at h
  rw [hst] at h
  simp only [] at h
  have hid := findRoom_id hroom
  by_cases hc : (!hasCheckedIn db1 room1.id && decide (room1.status ≠ RoomStatus.available)) = true
  · rw [if_pos hc] at h
    cases h
    simp only [Bool.and_eq_true, Bool.not_eq_true', decide_eq_true_eq] at hc
    refine ⟨rfl, ?_, ?_⟩
    · intro _
      rw [← hid]
      exact findRoom_setRoomStatus _ (by rw [hid]; exact hroom)
    · intro hhas
      rw [hid] at hc
      rw [hc.1] at hhas
      cases hhas
  · rw [Bool.not_eq_true] at hc
    rw [hc] at h
    simp only [Bool.false_eq_true, if_false] at h
    cases h
    simp only [Bool.and_eq_false_iff, Bool.not_eq_false', decide_eq_false_iff_not] at hc
    refine ⟨rfl, ?_, fun _ => hroom⟩
    intro hno
    rw [hid] at hc
    rcases hc with hc | hc
    · rw [hno] at hc; cases hc
    · push_neg at hc
      rw [hroom]
      exact room_eta hc

/-- A cleaning room with one checked-in reservation and one unrelated
booked reservation — the input on which the presenter's cancel violates
the claimed only-if condition. -/
def c5ResA : Reservation := ⟨1, 1, 1, 10, 12, .checked_in, false, 0, 9⟩

def c5ResD : Reservation := ⟨2, 1, 1, 20, 22, .booked, false, 0, 9⟩

def c5Db : DB := ⟨[⟨1, "101", .double, 10000, .cleaning⟩], [], [], [c5ResA, c5ResD], [], [], [], 3⟩

def c5DbAfter : DB :=
  ⟨[⟨1, "101", .double, 10000, .available⟩], [], [],
   [c5ResA, ⟨2, 1, 1, 20, 22, .canceled, false, 0, 30⟩], [], [], [], 3⟩

/-- **C5 (counterexample)**: canceling a booked reservation through
`ReservationPresenter.cancel` while the room is `cleaning` and another
reservation for the same room is still `checked_in` sets the room to
`available` — the claim says the room may become available only if no
remaining reservation for it is checked-in. -/
theorem C5_counterexample :
    presenterCancel c5Db 30 2 = .ok c5DbAfter ∧
    hasCheckedIn c5DbAfter 1 = true ∧
    findRoom c5Db 1 = some ⟨1, "101", RoomType.double, 10000, RoomStatus.cleaning⟩ ∧
    findRoom c5DbAfter 1 = some ⟨1, "101", RoomType.double, 10000, RoomStatus.available⟩ :=
  ⟨rfl, by decide, by decide, by decide⟩

/-- **C5 (amended)**: on every reservation status transition the
referenced room is synced: to checked_in the room becomes occupied; to
checked_out it becomes cleaning; on transition to canceled through a
direct save (the synchronizer) it becomes available only if no remaining
reservation for the room is checked-in and is otherwise left unchanged;
on deletion it becomes available only if additionally it was neither
cleaning nor already available (cleaning is never reset by a deletion),
and is otherwise left unchanged.  Exception (forced by the
counterexample): the presenter's cancel operation afterwards forces the
room to available whenever its post-sync status is not occupied, even if
a checked-in reservation remains, so after a presenter cancel the room is
always either available or occupied. -/
theorem C5_room_status_sync (db db' : DB) (today resId : Nat) (r : Reservation)
    (room0 : Room) (hr : findReservation db resId = some r)
    (hroom0 : findRoom db r.room = some room0) :
    (r.status ≠ .checked_in →
      reservationUpdateStatus db today resId .checked_in = .ok db' →
      findRoom db' r.room = some { room0 with status := .occupied }) ∧
    (r.status ≠ .checked_out →
      reservationUpdateStatus db today resId .checked_out = .ok db' →
      findRoom db' r.room = some { room0 with status := .cleaning }) ∧
    (r.status ≠ .canceled →
      reservationUpdateStatus db today resId .canceled = .ok db' →
      (hasCheckedIn db' r.room = false →
        findRoom db' r.room = some { room0 with status := .available }) ∧
      (hasCheckedIn db' r.room = true → findRoom db' r.room = some room0)) ∧
    (reservationDelete db resId = .ok db' →
      (hasCheckedIn db' r.room = true → findRoom db' r.room = some room0) ∧
      (room0.status = .cleaning → findRoom db' r.room = some room0) ∧
      (hasCheckedIn db' r.room = false → room0.status ≠ .cleaning →
        findRoom db' r.room = some { room0 with status := .available })) ∧
    (r.status ≠ .canceled → presenterCancel db today resId = .ok db' →
      ∀ room1, findRoom db' r.room = some room1 →
        room1.status = .available ∨ room1.status = .occupied) := by
  refine ⟨?_, ?_, ?_, ?_, ?_⟩
  · intro hne h
    have hs := updateStatus_ok_shape hr h
    have hroom1 : findRoom (writeStatus db today resId r .checked_in) r.room =
      some room0 := hroom0
    exact @sync_checked_in (writeStatus db today resId r .checked_in) db' r.status
      { r with status := .checked_in, updated_at := today } room0 hroom1 hne rfl hs
  · intro hne h
    have hs := updateStatus_ok_shape hr h
    have hroom1 : findRoom (writeStatus db today resId r .checked_out) r.room =
      some room0 := hroom0
    exact @sync_checked_out (writeStatus db today resId r .checked_out) db' r.status
      { r with status := .checked_out, updated_at := today } room0 hroom1 hne rfl hs
  · intro hne h
    have hs := updateStatus_ok_shape hr h
    have hroom1 : findRoom (writeStatus db today resId r .canceled) r.room =
      some room0 := hroom0
    have hres := @sync_canceled (writeStatus db today resId r .canceled) db' r.status
      { r with status := .canceled, updated_at := today } room0 hroom1 hne rfl hs
    have hcc : hasCheckedIn db' r.room =
        hasCheckedIn (writeStatus db today resId r .canceled) r.room := by
      unfold hasCheckedIn
      rw [hres.1]
    constructor
    · intro hfalse
      exact hres.2.1 (by rw [← hcc]; exact hfalse)
    · intro htrue
      exact hres.2.2 (by rw [← hcc]; exact htrue)
  · intro h
    unfold reservationDelete at h
    rw [hr] at h
    simp only [] at h
    split at h
    · cases h
    · rename_i room1 heq
      have heq' : findRoom db r.room = some room1 := heq
      rw [hroom0] at heq'
      cases heq'
      have hid := findRoom_id heq
      split at h
      · rename_i hcond
        cases h
        simp only [Bool.and_eq_true, Bool.not_eq_true', decide_eq_true_eq] at hcond
        refine ⟨?_, ?_, ?_⟩
        · intro htrue
          have h1 := hcond.1.1
          rw [hid] at h1
          rw [hasCheckedIn_setRoomStatus, h1] at htrue
          cases htrue
        · intro hclean
          exact absurd hclean hcond.1.2
        · intro _ _
          rw [← hid]
          exact findRoom_setRoomStatus _ (by rw [hid]; exact heq)
      · rename_i hcond
        cases h
        refine ⟨fun _ => heq, fun _ => heq, ?_⟩
        intro hfalse hnc
        rw [Bool.not_eq_true, Bool.and_eq_false_iff, Bool.and_eq_false_iff] at hcond
        rw [hid] at hcond
        rcases hcond with (hcond | hcond) | hcond
        · rw [Bool.not_eq_false'] at hcond
          rw [hcond] at hfalse
          cases hfalse
        · rw [decide_eq_false_iff_not] at hcond
          exact absurd (by push_neg at hcond; exact hcond) (by simpa using hnc)
        · rw [decide_eq_false_iff_not] at hcond
          push_neg at hcond
          rw [heq]
          exact room_eta hcond
  · intro hne h
    unfold presenterCancel at h
    rw [hr] at h
    simp only [] at h
    rw [if_neg hne] at h
    cases hu : reservationUpdateStatus db today resId .canceled with
    | error e => rw [hu] at h; cases h
    | ok dbm =>
      rw [hu] at h
      simp only [] at h
      cases hfr : findRoom dbm r.room with
      | none => rw [hfr] at h; cases h
      | some roomm =>
        rw [hfr] at h
        simp only [] at h
        by_cases ho : roomm.status ≠ RoomStatus.occupied
        · rw [if_pos ho] at h
          have hid := findRoom_id hfr
          rw [hid] at h
          cases h
          intro room1 hfind
          rw [findRoom_setRoomStatus RoomStatus.available hfr] at hfind
          cases hfind
          left
          rfl
        · rw [if_neg ho] at h
          cases h
          intro room1 hfind
          rw [hfr] at hfind
          cases hfind
          right
          push_neg at ho
          exact ho

/-- Concrete inputs for the C5 witness: one available room with a single
booked reservation; check-in, cancel, delete and presenter-cancel each
leave the room in the claimed status. -/
def w5Res : Reservation := ⟨1, 1, 1, 10, 12, .booked, false, 0, 9⟩

def w5Room : Room := ⟨1, "101", .double, 10000, .available⟩

def w5Db : DB := ⟨[w5Room], [], [], [w5Res], [], [], [], 2⟩

def w5DbA : DB :=
  ⟨[⟨1, "101", .double, 10000, .occupied⟩], [], [],
   [⟨1, 1, 1, 10, 12, .checked_in, false, 0, 30⟩], [], [], [], 2⟩

def w5DbC : DB :=
  ⟨[w5Room], [], [], [⟨1, 1, 1, 10, 12, .canceled, false, 0, 30⟩], [], [], [], 2⟩

def w5DbD : DB := ⟨[w5Room], [], [], [], [], [], [], 2⟩

/-- Witness for C5 at concrete inputs: checking in occupies the room;
canceling with no checked-in reservation leaves it available; deleting
the only reservation keeps it available; after a presenter cancel the
room is available or occupied. -/
theorem C5_room_status_sync_witness :
    findRoom w5DbA 1 = some ⟨1, "101", RoomType.double, 10000, RoomStatus.occupied⟩ ∧
    findRoom w5DbC 1 = some ⟨1, "101", RoomType.double, 10000, RoomStatus.available⟩ ∧
    findRoom w5DbD 1 = some ⟨1, "101", RoomType.double, 10000, RoomStatus.available⟩ ∧
    (RoomStatus.available = RoomStatus.available ∨
      RoomStatus.available = RoomStatus.occupied) :=
  ⟨(C5_room_status_sync w5Db w5DbA 30 1 w5Res w5Room (by decide) (by decide)).1
      (by decide) rfl,
   ((C5_room_status_sync w5Db w5DbC 30 1 w5Res w5Room (by decide) (by decide)).2.2.1
      (by decide) rfl).1 (by decide),
   ((C5_room_status_sync w5Db w5DbD 30 1 w5Res w5Room (by decide) (by decide)).2.2.2.1
      rfl).2.2 (by decide) (by decide),
   (C5_room_status_sync w5Db w5DbC 30 1 w5Res w5Room (by decide) (by decide)).2.2.2.2
      (by decide) rfl ⟨1, "101", RoomType.double, 10000, RoomStatus.available⟩ (by decide)⟩

theorem foldl_nightbody_invoices (invId : Nat) (res : Reservation) (room : Room) :
    ∀ (l : List Nat) (db0 : DB),
      ((l.foldl (fun db i =>
        let day := res.check_in + i
        let price := get_price_for_date db room day
        let db1 := newLine db invId (.accommodation room.number day) 100 price 900
        if res.breakfast_included && decide (0 < res.breakfast_price) then
          newLine db1 invId (.breakfast day) 100 res.breakfast_price 900
        else db1) db0)).invoices = db0.invoices := by
  intro l
  induction l with
  | nil => intro db0; rfl
  | cons a as ih =>
    intro db0
    rw [List.foldl_cons]
    rw [ih]
    simp only []
    split <;> rfl

theorem buildDefaultLines_true_invoices {db db' : DB} {invId : Nat}
    (h : buildDefaultLines db invId true = some db') : db'.invoices = db.invoices := by
  unfold buildDefaultLines at h
  rw [if_neg (by simp)] at h
  simp only [] at h
  split at h
  · cases h
  · split at h
    · cases h
    · split at h
      · cases h
      · cases h
        exact foldl_nightbody_invoices invId _ _ (List.range _) _

theorem syncRoomOnSave_invoices {db db' : DB} {old : Option ResStatus} {r : Reservation}
    (h : syncRoomOnSave db old r = .ok db') : db'.invoices = db.invoices := by
  unfold syncRoomOnSave at h
  split at h
  · cases h; rfl
  · split at h
    · cases h
    · split at h
      · cases h; split <;> rfl
      · cases h; split <;> rfl
      · split at h
        · cases h; rfl
        · cases h; rfl
      · cases h; rfl

theorem invoiceInsert_adds {db db2 : DB} {today resId cid : Nat}
    (h : invoiceInsert db today resId cid = .ok db2) :
    db2.invoices.any (fun i => decide (i.reservation = resId)) = true := by
  unfold invoiceInsert at h
  simp only [] at h
  split at h
  · cases h
  · split at h
    · cases h
    · split at h
      · cases h
      · rename_i dbB hbuild
        cases h
        have hinvs : dbB.invoices = db.invoices ++
            [⟨db.nextId, resId, cid, "XB", some (maxNumberInSeries db "XB" + 1),
              some today, 0, false, none, none, none⟩] := by
          split at hbuild
          · cases hbuild; rfl
          · exact buildDefaultLines_true_invoices hbuild
        simp only []
        rw [hinvs, List.map_append, List.any_append]
        simp

theorem reservationCreate_has_invoice {db db1 : DB} {today rid : Nat} {f : ResInput}
    (h : reservationCreate db today f = .ok (db1, rid)) :
    db1.invoices.any (fun i => decide (i.reservation = rid)) = true := by
  unfold reservationCreate at h
  simp only [] at h
  split at h
  · cases h
  · split at h
    · cases h
    · rename_i db2 hC
      split at h
      · cases h
      · rename_i db3 hsync
        cases h
        rw [syncRoomOnSave_invoices hsync]
        split at hC
        · rename_i hex
          cases hC
          exact hex
        · exact invoiceInsert_adds hC

/-- **C2**: `ReservationPresenter.create_reservation` can never succeed:
the post-save signal already creates the invoice for the fresh
reservation (or one with that key already existed), so the presenter's
own `Invoice.objects.create` always violates the one-to-one constraint
and the whole transaction raises and rolls back — an error outcome
carries no state, so nothing of the operation is ever persisted. -/
theorem C2_create_reservation_never_succeeds (db : DB) (today : Nat) (f : ResInput) :
    ∃ e : Err, presenterCreate db today f = .error e := by
  unfold presenterCreate
  cases hc : reservationCreate db today { f with status := .booked } with
  | error e => exact ⟨e, rfl⟩
  | ok p =>
    obtain ⟨db1, rid⟩ := p
    have hinv := reservationCreate_has_invoice hc
    refine ⟨.integrity, ?_⟩
    have hfail : invoiceInsert db1 today rid f.client = .error .integrity := by
      unfold invoiceInsert
      rw [if_pos hinv]
    show (match invoiceInsert db1 today rid f.client with
      | Except.error e => Except.error e
      | Except.ok db2 => Except.ok (db2, rid)) = Except.error Err.integrity
    rw [hfail]

/-! ## Well-formed stored states (enforced by the storage constraints and
the validator) used for the night-audit close. -/

/-- Storage-level invariants: the check constraint `check_in <
check_out`, foreign keys into `rooms`, primary-key uniqueness, and the
validator's no-double-booking invariant among booked/checked-in
reservations. -/
def WfDB (db : DB) : Prop :=
  (∀ r ∈ db.reservations, r.check_in < r.check_out) ∧
  (∀ r ∈ db.reservations, r.room ∈ db.rooms.map (fun x => x.id)) ∧
  (db.reservations.map (fun x => x.id)).Nodup ∧
  (∀ r ∈ db.reservations, ∀ o ∈ db.reservations, r.id ≠ o.id → r.room = o.room →
    (r.status = .booked ∨ r.status = .checked_in) →
    (o.status = .booked ∨ o.status = .checked_in) →
    ¬(o.check_in < r.check_out ∧ r.check_in < o.check_out))

theorem find_of_mem_nodup_ids : ∀ {ls : List Reservation} {r : Reservation},
    (ls.map (fun x => x.id)).Nodup → r ∈ ls →
    ls.find? (fun x => decide (x.id = r.id)) = some r := by
  intro ls
  induction ls with
  | nil => intro r _ hmem; cases hmem
  | cons a as ih =>
    intro r hnd hmem
    rcases List.mem_cons.mp hmem with h | h
    · subst h
      exact List.find?_cons_of_pos _ (by simp)
    · have hne : a.id ≠ r.id := by
        intro he
        rw [List.map_cons, List.nodup_cons] at hnd
        exact hnd.1 (he ▸ List.mem_map_of_mem _ h)
      rw [List.find?_cons_of_neg _ (by simpa using hne)]
      exact ih (by rw [List.map_cons, List.nodup_cons] at hnd; exact hnd.2) h

theorem findReservation_of_mem {db : DB} {r : Reservation}
    (hnd : (db.reservations.map (fun x => x.id)).Nodup) (hmem : r ∈ db.reservations) :
    findReservation db r.id = some r :=
  find_of_mem_nodup_ids hnd hmem

theorem findRoom_exists {db : DB} {i : Nat} (h : i ∈ db.rooms.map (fun x => x.id)) :
    ∃ room1, findRoom db i = some room1 := by
  rcases List.mem_map.mp h with ⟨room, hmem, hid⟩
  have : (db.rooms.find? (fun x => decide (x.id = i))).isSome := by
    rw [List.find?_isSome]
    exact ⟨room, hmem, by simp [hid]⟩
  exact Option.isSome_iff_exists.mp this

theorem setRoomStatus_room_ids (db : DB) (i : Nat) (st : RoomStatus) :
    (setRoomStatus db i st).rooms.map (fun x => x.id) = db.rooms.map (fun x => x.id) := by
  unfold setRoomStatus
  simp only [List.map_map]
  apply List.map_congr_left
  intro x _
  simp only [Function.comp]
  split <;> rfl

theorem presenterCancel_booked {db : DB} {today : Nat} {r : Reservation}
    (hwf : WfDB db) (hmem : r ∈ db.reservations) (hbooked : r.status = .booked) :
    ∃ db', presenterCancel db today r.id = .ok db' ∧
      db'.reservations = db.reservations.map (fun x =>
        if x.id = r.id then { r with status := .canceled, updated_at := today } else x) ∧
      db'.rooms.map (fun x => x.id) = db.rooms.map (fun x => x.id) ∧
      db'.invoices = db.invoices ∧ db'.audits = db.audits := by
  obtain ⟨hdates, hfk, hnd, hnov⟩ := hwf
  have hfind : findReservation db r.id = some r := findReservation_of_mem hnd hmem
  have hclean : reservationClean db { r with status := .canceled, updated_at := today }
      (some r.id) = .ok () := by
    unfold reservationClean
    split
    · rename_i hle
      have hle' : r.check_out ≤ r.check_in := hle
      have := hdates r hmem
      omega
    · split
      · rename_i h1 hany
        have hany' : db.reservations.any (fun o =>
            decide (some o.id ≠ some r.id) && decide (o.room = r.room) &&
            (decide (o.status = .booked) || decide (o.status = .checked_in)) &&
            decide (o.check_in < r.check_out) && decide (r.check_in < o.check_out)) =
            true := hany
        rcases List.any_eq_true.mp hany' with ⟨o, ho, hcond⟩
        simp only [Bool.and_eq_true, Bool.or_eq_true, decide_eq_true_eq] at hcond
        obtain ⟨⟨⟨⟨h1, h2⟩, h3⟩, h4⟩, h5⟩ := hcond
        exact absurd ⟨h4, h5⟩
          (hnov r hmem o ho (fun he => h1 (by rw [he])) h2.symm (Or.inl hbooked) h3)
      · rfl
  have hsome : (db.rooms.find? (fun x => decide (x.id = r.room))).isSome := by
    rw [List.find?_isSome]
    rcases List.mem_map.mp (hfk r hmem) with ⟨room, hroommem, hid⟩
    exact ⟨room, hroommem, by simp [hid]⟩
  have hup : ∃ db2, reservationUpdateStatus db today r.id .canceled = .ok db2 ∧
      db2.reservations = db.reservations.map (fun x =>
        if x.id = r.id then { r with status := .canceled, updated_at := today } else x) ∧
      db2.rooms.map (fun x => x.id) = db.rooms.map (fun x => x.id) ∧
      db2.invoices = db.invoices ∧ db2.audits = db.audits := by
    unfold reservationUpdateStatus
    rw [hfind]
    simp only []
    rw [hclean]
    simp only []
    unfold syncRoomOnSave
    split
    · rename_i habs
      have habs' : r.status = ResStatus.canceled := by
        have := Option.some.inj habs
        exact this
      rw [hbooked] at habs'
      cases habs'
    · split
      · rename_i hnone
        have hnone' : db.rooms.find? (fun x => decide (x.id = r.room)) = none := hnone
        rw [hnone'] at hsome
        cases hsome
      · rename_i room1 hroom1
        simp only []
        split
        · refine ⟨_, rfl, rfl, ?_, rfl, rfl⟩
          exact (setRoomStatus_room_ids _ _ _).trans rfl
        · exact ⟨_, rfl, rfl, rfl, rfl, rfl⟩
  obtain ⟨db2, hup2, hres2, hrooms2, hinv2, haud2⟩ := hup
  have hsome2 : (db2.rooms.find? (fun x => decide (x.id = r.room))).isSome := by
    rw [List.find?_isSome]
    have : r.room ∈ db2.rooms.map (fun x => x.id) := by rw [hrooms2]; exact hfk r hmem
    rcases List.mem_map.mp this with ⟨room, hroommem, hid⟩
    exact ⟨room, hroommem, by simp [hid]⟩
  unfold presenterCancel
  rw [hfind]
  simp only []
  split
  · rename_i habs
    rw [hbooked] at habs
    cases habs
  · rw [hup2]
    simp only []
    split
    · rename_i hnone
      have hnone' : db2.rooms.find? (fun x => decide (x.id = r.room)) = none := hnone
      rw [hnone'] at hsome2
      cases hsome2
    · rename_i room2 hroom2
      split
      · refine ⟨_, rfl, hres2, ?_, hinv2, haud2⟩
        exact (setRoomStatus_room_ids _ _ _).trans hrooms2
      · exact ⟨_, rfl, hres2, hrooms2, hinv2, haud2⟩

theorem WfDB_after_cancel {db db' : DB} {today : Nat} {r : Reservation}
    (hwf : WfDB db) (hmem : r ∈ db.reservations)
    (hres : db'.reservations = db.reservations.map (fun x =>
      if x.id = r.id then { r with status := .canceled, updated_at := today } else x))
    (hrooms : db'.rooms.map (fun x => x.id) = db.rooms.map (fun x => x.id)) :
    WfDB db' := by
  obtain ⟨hdates, hfk, hnd, hnov⟩ := hwf
  refine ⟨?_, ?_, ?_, ?_⟩
  · intro x hx
    rw [hres] at hx
    rcases List.mem_map.mp hx with ⟨y, hy, hxy⟩
    by_cases hid : y.id = r.id
    · rw [if_pos hid] at hxy; rw [← hxy]; exact hdates r hmem
    · rw [if_neg hid] at hxy; rw [← hxy]; exact hdates y hy
  · intro x hx
    rw [hrooms]
    rw [hres] at hx
    rcases List.mem_map.mp hx with ⟨y, hy, hxy⟩
    by_cases hid : y.id = r.id
    · rw [if_pos hid] at hxy; rw [← hxy]; exact hfk r hmem
    · rw [if_neg hid] at hxy; rw [← hxy]; exact hfk y hy
  · rw [hres]
    have hids : (db.reservations.map (fun x =>
        if x.id = r.id then { r with status := .canceled, updated_at := today }
        else x)).map (fun x => x.id) = db.reservations.map (fun x => x.id) := by
      rw [List.map_map]
      apply List.map_congr_left
      intro x _
      simp only [Function.comp]
      by_cases hid : x.id = r.id
      · rw [if_pos hid]; exact hid.symm
      · rw [if_neg hid]
    rw [hids]
    exact hnd
  · intro x hx o ho hne hroom hax hao
    rw [hres] at hx ho
    rcases List.mem_map.mp hx with ⟨y, hy, hxy⟩
    rcases List.mem_map.mp ho with ⟨z, hz, hoz⟩
    have hxy' : x = y := by
      by_cases hid : y.id = r.id
      · rw [if_pos hid] at hxy
        exfalso
        rw [← hxy] at hax
        rcases hax with h | h <;> cases h
      · rw [if_neg hid] at hxy; exact hxy.symm
    have hoz' : o = z := by
      by_cases hid : z.id = r.id
      · rw [if_pos hid] at hoz
        exfalso
        rw [← hoz] at hao
        rcases hao with h | h <;> cases h
      · rw [if_neg hid] at hoz; exact hoz.symm
    subst hxy'
    subst hoz'
    exact hnov x hy o hz hne hroom hax hao

theorem cancelAll_spec (today : Nat) :
    ∀ (todo : List Reservation) (dbk : DB),
      WfDB dbk →
      (∀ rt ∈ todo, rt ∈ dbk.reservations ∧ rt.status = .booked) →
      ((todo.map (fun x => x.id)).Nodup) →
      ∃ db2, cancelAll dbk today (todo.map (fun x => x.id)) = .ok db2 ∧
        (∀ x ∈ dbk.reservations, (∀ rt ∈ todo, x.id ≠ rt.id) → x ∈ db2.reservations) ∧
        (∀ rt ∈ todo, ∃ x ∈ db2.reservations,
          x.id = rt.id ∧ x.status = .canceled ∧ x.updated_at = today) ∧
        (∀ x ∈ db2.reservations, x.status = .booked →
          x ∈ dbk.reservations ∧ ∀ rt ∈ todo, x.id ≠ rt.id) ∧
        db2.rooms.map (fun x => x.id) = dbk.rooms.map (fun x => x.id) ∧
        db2.invoices = dbk.invoices ∧ db2.audits = dbk.audits := by
  intro todo
  induction todo with
  | nil =>
    intro dbk hwf hall hndt
    exact ⟨dbk, rfl, fun x hx _ => hx, fun rt h => absurd h (List.not_mem_nil rt),
      fun x hx _ => ⟨hx, fun rt h => absurd h (List.not_mem_nil rt)⟩, rfl, rfl, rfl⟩
  | cons r0 rest ih =>
    intro dbk hwf hall hndt
    obtain ⟨h0mem, h0book⟩ := hall r0 (List.mem_cons_self r0 rest)
    obtain ⟨db1, hstep, hres1, hrooms1, hinv1, haud1⟩ :=
      presenterCancel_booked hwf h0mem h0book
    have hwf1 : WfDB db1 := WfDB_after_cancel hwf h0mem hres1 hrooms1
    have hhead : r0.id ∉ rest.map (fun x => x.id) := by
      rw [List.map_cons, List.nodup_cons] at hndt
      exact hndt.1
    have hndrest : (rest.map (fun x => x.id)).Nodup := by
      rw [List.map_cons, List.nodup_cons] at hndt
      exact hndt.2
    have hall1 : ∀ rt ∈ rest, rt ∈ db1.reservations ∧ rt.status = .booked := by
      intro rt hrt
      obtain ⟨hrtmem, hrtbook⟩ := hall rt (List.mem_cons_of_mem _ hrt)
      have hneq : rt.id ≠ r0.id := by
        intro he
        exact hhead (he ▸ List.mem_map_of_mem _ hrt)
      refine ⟨?_, hrtbook⟩
      rw [hres1]
      have : (if rt.id = r0.id then
          { r0 with status := ResStatus.canceled, updated_at := today } else rt) = rt := by
        rw [if_neg hneq]
      rw [← this]
      exact List.mem_map_of_mem _ hrtmem
    obtain ⟨db2, hrec, hsurv, hcanc, hnobook, hrooms2, hinv2, haud2⟩ :=
      ih db1 hwf1 hall1 hndrest
    have heqn : cancelAll dbk today ((r0 :: rest).map (fun x => x.id)) =
        cancelAll db1 today (rest.map (fun x => x.id)) := by
      rw [List.map_cons]
      show (match presenterCancel dbk today r0.id with
        | Except.error e => Except.error e
        | Except.ok dbx => cancelAll dbx today (rest.map (fun x => x.id))) =
        cancelAll db1 today (rest.map (fun x => x.id))
      rw [hstep]
    refine ⟨db2, heqn.trans hrec, ?_, ?_, ?_, hrooms2.trans hrooms1,
      hinv2.trans hinv1, haud2.trans haud1⟩
    · intro x hx hno
      have hneq : x.id ≠ r0.id := hno r0 (List.mem_cons_self r0 rest)
      have hx1 : x ∈ db1.reservations := by
        rw [hres1]
        have : (if x.id = r0.id then
            { r0 with status := ResStatus.canceled, updated_at := today } else x) = x := by
          rw [if_neg hneq]
        rw [← this]
        exact List.mem_map_of_mem _ hx
      exact hsurv x hx1 (fun rt hrt => hno rt (List.mem_cons_of_mem _ hrt))
    · intro rt hrt
      rcases List.mem_cons.mp hrt with h | h
      · subst h
        have hm : ({ rt with status := ResStatus.canceled, updated_at := today } :
            Reservation) ∈ db1.reservations := by
          rw [hres1]
          exact List.mem_map.mpr ⟨rt, h0mem, by rw [if_pos rfl]⟩
        have hsv := hsurv _ hm (by
          intro rt2 hrt2
          show rt.id ≠ rt2.id
          intro he
          exact hhead (he ▸ List.mem_map_of_mem _ hrt2))
        exact ⟨_, hsv, rfl, rfl, rfl⟩
      · exact hcanc rt h
    · intro x hx hbook
      obtain ⟨hx1, hno1⟩ := hnobook x hx hbook
      rw [hres1] at hx1
      rcases List.mem_map.mp hx1 with ⟨y, hy, hxy⟩
      by_cases hid : y.id = r0.id
      · rw [if_pos hid] at hxy
        exfalso
        rw [← hxy] at hbook
        cases hbook
      · rw [if_neg hid] at hxy
        refine ⟨hxy ▸ hy, ?_⟩
        intro rt hrt
        rcases List.mem_cons.mp hrt with h | h
        · subst h
          rw [← hxy]
          exact hid
        · exact hno1 rt h

/-- **C8**: closing the night audit for a date (when not already closed,
in a well-formed stored state) succeeds, auto-cancels — through the
presenter's cancel — every reservation for that arrival date still
booked at closing time (none remains booked; each reappears canceled
with its save timestamp set to the closing day), and persists exactly one
NightAudit row keyed by the date whose totals carry the occupancy
metrics computed on the pre-close state together with the no-show count
and the arrival/departure/stayover/cancellation counts as they stand
after those cancellations have been applied. -/
theorem C8_night_audit_close (db : DB) (d today : Nat) (hwf : WfDB db)
    (hnot : db.audits.any (fun a => decide (a.date = d)) = false) :
    ∃ db1, closeNightAudit db d today = .ok db1 ∧
      (∀ r ∈ db1.reservations, r.check_in = d → r.status ≠ .booked) ∧
      (∀ r ∈ db.reservations, r.check_in = d → r.status = .booked →
        ∃ x ∈ db1.reservations, x.id = r.id ∧ x.status = .canceled ∧
          x.updated_at = today) ∧
      db1.audits = db.audits ++ [⟨d,
        { occupied_rooms := occupiedRoomsCount db d
          total_rooms := totalRoomsOr1 db
          occupancy_percent := occupancyPercent (occupiedRoomsCount db d) (totalRoomsOr1 db)
          revenue := revenueOn db d
          adr := adrOf (revenueOn db d) (occupiedRoomsCount db d)
          revpar := revparOf (revenueOn db d) (totalRoomsOr1 db)
          arrivals := arrivalsCount db1 d
          departures := departuresCount db1 d
          stayovers := stayoversCount db1 d
          no_shows := (noShowsList db d).length
          cancellations := cancellationsCount db1 d }⟩] := by
  have hmembooked : ∀ rt ∈ noShowsList db d,
      rt ∈ db.reservations ∧ rt.status = .booked := by
    intro rt hrt
    have hmf := List.mem_filter.mp hrt
    refine ⟨hmf.1, ?_⟩
    have h2 := hmf.2
    simp only [Bool.and_eq_true, decide_eq_true_eq] at h2
    exact h2.2
  have hnodup : ((noShowsList db d).map (fun x => x.id)).Nodup := by
    have hsub : List.Sublist (noShowsList db d) db.reservations :=
      List.filter_sublist db.reservations
    exact List.Nodup.sublist (hsub.map (fun x => x.id)) hwf.2.2.1
  obtain ⟨db2, hca, hsurv, hcanc, hnobook, hroomsids, hinvs, hauds⟩ :=
    cancelAll_spec today (noShowsList db d) db hwf hmembooked hnodup
  refine ⟨{ db2 with audits := db2.audits ++ [⟨d,
    { occupied_rooms := occupiedRoomsCount db d
      total_rooms := totalRoomsOr1 db
      occupancy_percent := occupancyPercent (occupiedRoomsCount db d) (totalRoomsOr1 db)
      revenue := revenueOn db d
      adr := adrOf (revenueOn db d) (occupiedRoomsCount db d)
      revpar := revparOf (revenueOn db d) (totalRoomsOr1 db)
      arrivals := arrivalsCount db2 d
      departures := departuresCount db2 d
      stayovers := stayoversCount db2 d
      no_shows := (noShowsList db d).length
      cancellations := cancellationsCount db2 d }⟩] }, ?_, ?_, ?_, ?_⟩
  · unfold closeNightAudit
    rw [if_neg (by simp [hnot])]
    simp only []
    rw [hca]
  · intro r hr hcheck hbook
    have hr2 : r ∈ db2.reservations := hr
    obtain ⟨hrdb, hno⟩ := hnobook r hr2 hbook
    have hmem : r ∈ noShowsList db d :=
      List.mem_filter.mpr ⟨hrdb, by simp [hcheck, hbook]⟩
    exact hno r hmem rfl
  · intro r hrm hcheck hbook
    have hmem : r ∈ noShowsList db d :=
      List.mem_filter.mpr ⟨hrm, by simp [hcheck, hbook]⟩
    obtain ⟨x, hx2, hxid, hxst, hxup⟩ := hcanc r hmem
    exact ⟨x, hx2, hxid, hxst, hxup⟩
  · show db2.audits ++ _ = _
    rw [hauds]
    rfl

def w8Db : DB :=
  ⟨[⟨1, "101", .double, 10000, .available⟩], [], [],
   [⟨1, 1, 1, 10, 12, .booked, false, 0, 9⟩], [], [], [], 2⟩

theorem C8_night_audit_close_witness :
    ∃ db1, closeNightAudit w8Db 10 10 = .ok db1 ∧
      (∀ r ∈ db1.reservations, r.check_in = 10 → r.status ≠ .booked) ∧
      (∀ r ∈ w8Db.reservations, r.check_in = 10 → r.status = .booked →
        ∃ x ∈ db1.reservations, x.id = r.id ∧ x.status = .canceled ∧
          x.updated_at = 10) ∧
      db1.audits = w8Db.audits ++ [⟨10,
        { occupied_rooms := occupiedRoomsCount w8Db 10
          total_rooms := totalRoomsOr1 w8Db
          occupancy_percent := occupancyPercent (occupiedRoomsCount w8Db 10) (totalRoomsOr1 w8Db)
          revenue := revenueOn w8Db 10
          adr := adrOf (revenueOn w8Db 10) (occupiedRoomsCount w8Db 10)
          revpar := revparOf (revenueOn w8Db 10) (totalRoomsOr1 w8Db)
          arrivals := arrivalsCount db1 10
          departures := departuresCount db1 10
          stayovers := stayoversCount db1 10
          no_shows := (noShowsList w8Db 10).length
          cancellations := cancellationsCount db1 10 }⟩] :=
  C8_night_audit_close w8Db 10 10 (by unfold WfDB; decide) (by decide)
